import Mathlib

/-!
Shallow embedding of the ContextWeaver "smart" context-selection subsystem
(`src/smart/smart-context.ts`, `src/smart/conversation-pairs.ts`,
`src/smart/semantic-index.ts`, `src/smart/auto-importance.ts`,
`src/token-counter.ts`, `src/utils.ts`, `src/adapters/in-memory.ts`).

Modelling conventions, used throughout:
* JavaScript numbers that hold token counts are modelled as `ℕ` (the counters in
  this repository return non-negative integers); importance scores are modelled
  as `ℚ` (the source uses float literals such as `0.4`, `0.9` that are exact
  decimals; only `max`/`min`/`+`/comparison are applied to them, so `ℚ` is
  faithful); TF-IDF similarity scores use `Math.log`/`Math.sqrt` and are
  modelled over an ordered field parameter `K` with explicit `log`/`sqrt`
  function parameters, instantiated with `ℝ`, `Real.log`, `Real.sqrt` in
  theorems (IEEE rounding is not modelled).
* JavaScript `Map` objects are modelled as insertion-ordered association lists;
  `set` on an existing key updates in place, on a new key appends.
* `Array.prototype.sort` (ES2019+, stable) is modelled by a stable insertion
  sort; the comparator functions of the source are translated to the boolean
  predicate `cmp a b ≤ 0`.  The source comparators are assumed consistent on
  the inputs they are applied to.
* `Date.now()`, `generateId()` and the regular-expression tests of the source
  are impure or host-level; they are passed in explicitly (a time argument, an
  id argument, boolean pattern-outcome arguments).
* `async`/`await` storage round-trips always resolve against the in-memory
  adapter state; they are modelled as pure state-passing.
-/

namespace ContextWeaver

/-- Message roles (`src/types.ts`, `MessageRole`). -/
inductive MessageRole where
  | system
  | user
  | assistant
  | function
  | tool
deriving DecidableEq, Repr

/-- A stored conversation message (`src/types.ts`, `Message`).  The optional
`pinned` flag is modelled as `Bool` (the source only reads it under JavaScript
truthiness, where `undefined` and `false` coincide); the optional `importance`
field keeps its optionality because `??` distinguishes `undefined` from `0`.
The `metadata` field is never read by the code under verification and is
omitted. -/
structure Message where
  id : String
  role : MessageRole
  content : String
  timestamp : Int
  pinned : Bool := false
  importance : Option ℚ := none
deriving DecidableEq, Repr

/-- Simplified message for LLM calls (`src/types.ts`, `LLMMessage`). -/
structure LLMMessage where
  role : MessageRole
  content : String
deriving DecidableEq, Repr

/-- Result of a `getContext` call (`src/types.ts`, `ContextResult`, plus the
`strategyUsed` field the smart weaver adds). -/
structure ContextResult where
  messages : List LLMMessage
  tokenCount : ℕ
  messageCount : ℕ
  wasSummarized : Bool
  pinnedCount : ℕ
  strategyUsed : String
deriving DecidableEq, Repr

/-- Ephemeral message/score pairing (`scoreMessages` output in
`src/smart/smart-context.ts`). -/
structure ScoredMessage where
  message : Message
  score : ℚ
deriving DecidableEq, Repr

/-- Stable insertion of one element into a list: `x` is placed before the
first element `y` with `le x y`. -/
def insertLE (le : α → α → Bool) (x : α) : List α → List α
  | [] => [x]
  | y :: ys => if le x y then x :: y :: ys else y :: insertLE le x ys

/-- Stable sort (models ES2019+ `Array.prototype.sort`, which is stable): the
predicate `le a b` is the translation of `comparator(a, b) ≤ 0`. -/
def sortLE (le : α → α → Bool) : List α → List α
  | [] => []
  | x :: xs => insertLE le x (sortLE le xs)

/-- Sort by ascending timestamp (`src/utils.ts`, `sortByTimestamp`):
`[...messages].sort((a, b) => a.timestamp - b.timestamp)`. -/
def sortByTimestamp (messages : List Message) : List Message :=
  sortLE (fun a b => a.timestamp ≤ b.timestamp) messages

/-- Token estimate for one message (`src/token-counter.ts`,
`countMessageTokens`): the injected counter on the content plus 4 overhead
tokens.  The counter itself is a parameter (`TokenCounterFunction`). -/
def countMessageTokens (counter : String → ℕ) (m : LLMMessage) : ℕ :=
  counter m.content + 4

/-! ### `SmartContextWeaver.buildContext` (`src/smart/smart-context.ts`)

The private method is split into its sequential phases, each a definition, so
that the phase invariants can be stated separately.  `countTokens` stands for
`countTokensCached` (the token cache memoizes `countMessageTokens` keyed by a
content hash; assuming no hash collision it computes exactly
`countMessageTokens`, so it is passed as an opaque function). -/

/-- Phase 1 of `buildContext`: add the stored summary as a synthetic system
message if it exists (JavaScript truthiness: the empty string is skipped) and
fits the budget.  Returns (messages so far, token count, `wasSummarized`). -/
def summaryStep (countTokens : LLMMessage → ℕ) (summary : Option String)
    (maxTokens : ℕ) : List LLMMessage × ℕ × Bool :=
  match summary with
  | none => ([], 0, false)
  | some s =>
      if s = "" then ([], 0, false)
      else
        let summaryMessage : LLMMessage :=
          { role := .system, content := "Previous context: " ++ s }
        let tokens := countTokens summaryMessage
        if 0 + tokens ≤ maxTokens then ([summaryMessage], tokens, true)
        else ([], 0, false)

/-- Phase 3 of `buildContext`: fold over the pinned messages in timestamp
order, adding each whose tokens still fit.  State: (result, tokenCount,
pinnedCount). -/
def pinnedPack (countTokens : LLMMessage → ℕ) (maxTokens : ℕ) :
    List Message → List LLMMessage → ℕ → ℕ → List LLMMessage × ℕ × ℕ
  | [], acc, tc, pc => (acc, tc, pc)
  | m :: ms, acc, tc, pc =>
      if tc + countTokens { role := m.role, content := m.content } ≤ maxTokens then
        pinnedPack countTokens maxTokens ms
          (acc ++ [{ role := m.role, content := m.content }])
          (tc + countTokens { role := m.role, content := m.content }) (pc + 1)
      else
        pinnedPack countTokens maxTokens ms acc tc pc

/-- Score boost applied to regular messages in phase 4:
`semanticBoost.has(message.id) ? Math.min(1.0, score + 0.3) : score`. -/
def boostScore (semanticBoost : List String) (s : ScoredMessage) : ScoredMessage :=
  { s with score := if s.message.id ∈ semanticBoost then min 1 (s.score + 3/10) else s.score }

/-- `Math.abs` on the rational model of JavaScript numbers. -/
def ratAbs (q : ℚ) : ℚ := if q < 0 then -q else q

/-- The phase-4 comparator of `buildContext` as a "comes no later than"
predicate: score descending when the scores differ by more than `0.1`,
otherwise timestamp descending. -/
def regularLE (a b : ScoredMessage) : Bool :=
  if 1/10 < ratAbs (a.score - b.score) then b.score ≤ a.score
  else b.message.timestamp ≤ a.message.timestamp

/-- Phase 5 of `buildContext`: greedy packing of the sorted regular messages.
A candidate that does not fit is skipped, unless more than 10 messages have
already been added, in which case the loop breaks.  State: (added,
tokenCount). -/
def packRegular (countTokens : LLMMessage → ℕ) (maxTokens : ℕ) :
    List ScoredMessage → List LLMMessage → ℕ → List LLMMessage × ℕ
  | [], added, tc => (added, tc)
  | s :: rest, added, tc =>
      if tc + countTokens { role := s.message.role, content := s.message.content } ≤ maxTokens then
        packRegular countTokens maxTokens rest
          (added ++ [{ role := s.message.role, content := s.message.content }])
          (tc + countTokens { role := s.message.role, content := s.message.content })
      else if 10 < added.length then (added, tc)
      else packRegular countTokens maxTokens rest added tc

/-- Phases 1-3 of `buildContext` combined: the summary step followed by the
pinned-message fold over the pinned messages in timestamp order.  Returns
(result messages so far, tokenCount, pinnedCount). -/
def pinnedPhase (countTokens : LLMMessage → ℕ) (maxTokens : ℕ)
    (scored : List ScoredMessage) (summary : Option String) :
    List LLMMessage × ℕ × ℕ :=
  pinnedPack countTokens maxTokens
    (sortByTimestamp ((scored.filter (fun s => s.message.pinned)).map (fun s => s.message)))
    (summaryStep countTokens summary maxTokens).1
    (summaryStep countTokens summary maxTokens).2.1 0

/-- Phase 4 of `buildContext`: the non-pinned messages, semantically boosted,
thresholded, and sorted by the score/recency comparator (`sortedRegular` in
the source). -/
def regularCandidates (importanceThreshold : ℚ) (semanticBoost : List String)
    (scored : List ScoredMessage) : List ScoredMessage :=
  sortLE regularLE
    (((scored.filter (fun s => !s.message.pinned)).map (boostScore semanticBoost)).filter
      (fun s => importanceThreshold ≤ s.score))

/-- The positional timestamp association of `buildContext`:
`added.map((msg, i) => ({msg, timestamp: sortedRegular[i]?.message.timestamp
?? 0}))`, with the running index made explicit. -/
def attachTimestamps (sortedRegular : List ScoredMessage) :
    List LLMMessage → ℕ → List (LLMMessage × Int)
  | [], _ => []
  | msg :: rest, i =>
      (msg, (((sortedRegular.get? i).map (fun s => s.message.timestamp)).getD 0)) ::
        attachTimestamps sortedRegular rest (i + 1)

/-- Tail phase of `buildContext`: the packed regular messages re-sorted by the
timestamp the source associates to them positionally. -/
def regularPhase (countTokens : LLMMessage → ℕ) (maxTokens : ℕ)
    (sortedRegular : List ScoredMessage) (startTokens : ℕ) : List LLMMessage :=
  (sortLE (fun a b => a.2 ≤ b.2)
    (attachTimestamps sortedRegular
      (packRegular countTokens maxTokens sortedRegular [] startTokens).1 0)).map
    Prod.fst

/-- `SmartContextWeaver.buildContext`, assembled from its phases exactly as in
the source: summary, pinned messages (timestamp order), regular messages
(boosted, thresholded, sorted, greedily packed, then re-sorted by the
positionally associated timestamps). -/
def buildContext (countTokens : LLMMessage → ℕ) (scored : List ScoredMessage)
    (summary : Option String) (maxTokens : ℕ) (importanceThreshold : ℚ)
    (semanticBoost : List String) : ContextResult :=
  { messages := (pinnedPhase countTokens maxTokens scored summary).1 ++
      regularPhase countTokens maxTokens
        (regularCandidates importanceThreshold semanticBoost scored)
        (pinnedPhase countTokens maxTokens scored summary).2.1
    tokenCount := (packRegular countTokens maxTokens
        (regularCandidates importanceThreshold semanticBoost scored) []
        (pinnedPhase countTokens maxTokens scored summary).2.1).2
    messageCount := ((pinnedPhase countTokens maxTokens scored summary).1 ++
      regularPhase countTokens maxTokens
        (regularCandidates importanceThreshold semanticBoost scored)
        (pinnedPhase countTokens maxTokens scored summary).2.1).length
    wasSummarized := (summaryStep countTokens summary maxTokens).2.2
    pinnedCount := (pinnedPhase countTokens maxTokens scored summary).2.2
    strategyUsed := "smart-auto" }

/-! Budget invariants of the three packing phases. -/

theorem summaryStep_tokenCount_le (countTokens : LLMMessage → ℕ)
    (summary : Option String) (maxTokens : ℕ) :
    (summaryStep countTokens summary maxTokens).2.1 ≤ maxTokens := by
  unfold summaryStep
  match summary with
  | none => simp
  | some s =>
      by_cases hs : s = ""
      · simp [hs]
      · simp only [hs, if_false]
        split
        · next h => simpa using h
        · simp

theorem pinnedPack_tokenCount_le (countTokens : LLMMessage → ℕ) (maxTokens : ℕ)
    (ms : List Message) (acc : List LLMMessage) (tc pc : ℕ) (h : tc ≤ maxTokens) :
    (pinnedPack countTokens maxTokens ms acc tc pc).2.1 ≤ maxTokens := by
  induction ms generalizing acc tc pc with
  | nil => simpa [pinnedPack] using h
  | cons m ms ih =>
      rw [pinnedPack]
      by_cases hfit : tc + countTokens { role := m.role, content := m.content } ≤ maxTokens
      · rw [if_pos hfit]; exact ih _ _ _ hfit
      · rw [if_neg hfit]; exact ih _ _ _ h

theorem packRegular_tokenCount_le (countTokens : LLMMessage → ℕ) (maxTokens : ℕ)
    (ms : List ScoredMessage) (added : List LLMMessage) (tc : ℕ) (h : tc ≤ maxTokens) :
    (packRegular countTokens maxTokens ms added tc).2 ≤ maxTokens := by
  induction ms generalizing added tc with
  | nil => simpa [packRegular] using h
  | cons s ms ih =>
      rw [packRegular]
      by_cases hfit :
          tc + countTokens { role := s.message.role, content := s.message.content } ≤ maxTokens
      · rw [if_pos hfit]; exact ih _ _ hfit
      · rw [if_neg hfit]
        by_cases hlen : 10 < added.length
        · rw [if_pos hlen]; exact h
        · rw [if_neg hlen]; exact ih _ _ h

theorem buildContext_tokenCount_le (countTokens : LLMMessage → ℕ)
    (scored : List ScoredMessage) (summary : Option String) (maxTokens : ℕ)
    (importanceThreshold : ℚ) (semanticBoost : List String) :
    (buildContext countTokens scored summary maxTokens importanceThreshold
      semanticBoost).tokenCount ≤ maxTokens := by
  unfold buildContext pinnedPhase
  exact packRegular_tokenCount_le _ _ _ _ _
    (pinnedPack_tokenCount_le _ _ _ _ _ _
      (summaryStep_tokenCount_le _ _ _))

/-! ### Auto-importance (`src/smart/auto-importance.ts`)

The regular-expression tests of `IMPORTANCE_PATTERNS` run in the host regex
engine; their boolean outcomes on a given content are abstracted as explicit
boolean values (`PatternHits` for `quickImportanceCheck`, a precomputed
`matched` flag per rule for `AutoImportance.calculateScore`).  Everything else
(weights, `max`/`min` folds, the length tests) is translated literally. -/

/-- Outcomes of the five `IMPORTANCE_PATTERNS` regex tests that
`quickImportanceCheck` performs on a content string. -/
structure PatternHits where
  personal : Bool := false
  budget : Bool := false
  preferences : Bool := false
  instructions : Bool := false
  contact : Bool := false
deriving DecidableEq, Repr

/-- `quickImportanceCheck(content)` (`src/smart/auto-importance.ts`): start at
0.4, raise by the matching patterns, clamp short contents down to 0.5 and long
contents up to 0.7. -/
def quickImportanceCheck (hits : PatternHits) (content : String) : ℚ :=
  let score : ℚ := 4/10
  let score := if hits.personal then max score (9/10) else score
  let score := if hits.budget then max score (85/100) else score
  let score := if hits.preferences then max score (8/10) else score
  let score := if hits.instructions then max score (8/10) else score
  let score := if hits.contact then max score (9/10) else score
  let score := if content.length < 20 then min score (5/10) else score
  let score := if 500 < content.length then max score (7/10) else score
  score

/-- One importance rule as `AutoImportance.calculateScore` consumes it: its
weight and the (abstracted) boolean outcome of `rule.match(message, index)`.
A rule whose `match` throws is skipped by the source's `try`/`catch`; a thrown
rule is represented by `matched = false`, which has the same effect. -/
structure RuleOutcome where
  weight : ℚ
  matched : Bool
deriving DecidableEq, Repr

/-- `AutoImportance.calculateScore(message, index)`
(`src/smart/auto-importance.ts`): explicit importance and pinned short-circuit,
then a `max` fold of the matching rule weights over the base 0.4, then a `max`
fold of the matching custom patterns at weight 0.8, capped at 1.0.
`rules` carries the precomputed outcome of each `rule.match(message, index)`
and `customMatched` the outcome of each custom `pattern.test(message.content)`. -/
def calculateScore (message : Message) (rules : List RuleOutcome)
    (customMatched : List Bool) : ℚ :=
  match message.importance with
  | some imp => imp
  | none =>
      if message.pinned then 1
      else
        let maxScore := rules.foldl
          (fun acc r => if r.matched then max acc r.weight else acc) (4/10)
        let maxScore := customMatched.foldl
          (fun acc c => if c then max acc (8/10) else acc) maxScore
        min 1 maxScore

/-! ### The `SmartContextWeaver` state machine (`src/smart/smart-context.ts`)

State covers the storage adapter contents (the default `InMemoryAdapter` of
`src/adapters/in-memory.ts`: per-session message lists and summaries) and the
context cache (`LRUCache` with 30 s TTL).  The semantic index and the session
bloom filter are also written by `add`, but no claim observes them through
this class (`findRelevant` results enter `getContext` only under a
`currentQuery`, and are abstracted as the `semanticRelevant` argument), so
they are not part of this state record; the semantic index itself is modelled
separately below.  The token cache memoizes the injected counter (keyed by a
content hash); assuming no hash collision it is observationally the counter
itself.  Impure inputs are explicit arguments: the current time (`Date.now`),
the generated message id, and the regex outcomes on the added content. -/

/-- Context-cache key: `${sessionId}:${maxTokens ?? this.tokenLimit}`.  The
second component is the numeric budget; the string concatenation of the source
is injective on (session id, budget) pairs because the rendered number
contains no `:`. -/
abbrev CacheKey := String × ℕ

/-- One context-cache entry: key, cached result, and the time it was stored. -/
structure CacheEntry where
  key : CacheKey
  value : ContextResult
  timestamp : Int
deriving DecidableEq, Repr

/-- The context cache TTL: the constructor passes 30000 ms. -/
def contextCacheTTL : Int := 30000

/-- Cache lookup at time `tNow` (`LRUCache.get`): a present entry is returned
unless expired (`Date.now() > timestamp + ttl`).  The source also deletes an
expired node and moves a hit to the front of the recency list; neither is
observable through the claims modelled here (a later lookup re-checks the TTL
against a no-smaller time), so the lookup is modelled as pure. -/
def cacheGet (cache : List CacheEntry) (k : CacheKey) (tNow : Int) :
    Option ContextResult :=
  match cache.find? (fun e => e.key = k) with
  | none => none
  | some e => if e.timestamp + contextCacheTTL < tNow then none else some e.value

/-- Cache insertion (`LRUCache.set`): update in place if the key exists, else
append.  Capacity eviction (capacity 100) is not exercised by the claims and
is not modelled. -/
def cacheSet (cache : List CacheEntry) (k : CacheKey) (v : ContextResult)
    (tNow : Int) : List CacheEntry :=
  if cache.any (fun e => e.key = k) then
    cache.map (fun e => if e.key = k then { key := k, value := v, timestamp := tNow } else e)
  else
    cache ++ [{ key := k, value := v, timestamp := tNow }]

/-- Cache deletion (`LRUCache.delete`). -/
def cacheDelete (cache : List CacheEntry) (k : CacheKey) : List CacheEntry :=
  cache.filter (fun e => e.key ≠ k)

/-- The mutable state of one `SmartContextWeaver` with the in-memory storage
adapter: per-session messages, per-session summaries, the context cache. -/
structure WeaverState where
  sessions : String → List Message
  summaries : String → Option String
  contextCache : List CacheEntry

/-- Configuration of a `SmartContextWeaver` (`SmartContextOptions` plus the
abstracted callable dependencies): the token limit, the injected token
counter, the summarizer (external or the local summarizer — its text output is
irrelevant to every claim, so it stays an opaque function), the auto-importance
scorer used by `scoreMessages` (`message.importance ?? (enableAutoImportance ?
autoImportance.calculateScore(message, index) : 0.5)` — the flag and the rule
table are folded into this function), and the feature flags read by `add` and
`maybeAutoSummarize`. -/
structure Config where
  tokenLimit : ℕ := 4000
  counter : String → ℕ
  summarize : List Message → String
  autoScore : Message → ℕ → ℚ
  enableAutoImportance : Bool := true
  enableLocalSummary : Bool := true
  enableSemantic : Bool := true

/-- `SmartContextWeaver.cacheKey(sessionId, maxTokens?)`. -/
def SmartCacheKey (cfg : Config) (sessionId : String) (maxTokens : Option ℕ) : CacheKey :=
  (sessionId, maxTokens.getD cfg.tokenLimit)

/-- `SmartContextWeaver.scoreMessages`:
`messages.map((message, index) => ({message, score: message.importance ??
autoScore(message, index)}))`, with the running index made explicit. -/
def scoreMessagesGo (cfg : Config) : List Message → ℕ → List ScoredMessage
  | [], _ => []
  | m :: ms, index =>
      { message := m, score := m.importance.getD (cfg.autoScore m index) } ::
        scoreMessagesGo cfg ms (index + 1)

/-- `SmartContextWeaver.scoreMessages`. -/
def scoreMessages (cfg : Config) (messages : List Message) : List ScoredMessage :=
  scoreMessagesGo cfg messages 0

/-- Options of a `getContext` call (`SmartGetContextOptions`). -/
structure SmartGetContextOptions where
  maxTokens : Option ℕ := none
  currentQuery : Option String := none
  importanceThreshold : Option ℚ := none
  includeSemantic : Option Bool := none
deriving Repr

/-- The importance `SmartContextWeaver.add` computes:
`options.pinned ? 1.0 : (enableAutoImportance ? quickImportanceCheck(content)
: 0.5)` (JavaScript truthiness: `pinned: false` takes the non-pinned branch). -/
def addImportance (enableAutoImportance : Bool) (optPinned : Option Bool)
    (hits : PatternHits) (content : String) : ℚ :=
  if optPinned = some true then 1
  else if enableAutoImportance then quickImportanceCheck hits content else 1/2

/-- The message record constructed by `SmartContextWeaver.add`: importance as
above; `pinned` falls back via `??` to auto-pinning at importance ≥ 0.9. -/
def mkAddedMessage (enableAutoImportance : Bool) (optPinned : Option Bool)
    (hits : PatternHits) (role : MessageRole) (content : String) (newId : String)
    (tNow : Int) : Message :=
  { id := newId
    role := role
    content := content
    timestamp := tNow
    pinned := optPinned.getD
      (decide ((9:ℚ)/10 ≤ addImportance enableAutoImportance optPinned hits content))
    importance := some (addImportance enableAutoImportance optPinned hits content) }

/-- `InMemoryAdapter.deleteMessage`: remove the first message with the given
id (the adapter uses `findIndex` + `splice`). -/
def removeFirstById : List Message → String → List Message
  | [], _ => []
  | m :: ms, mid => if m.id = mid then ms else m :: removeFirstById ms mid

/-- `InMemoryAdapter.updateMessage` as used by `pin`/`unpin`: merge an update
into the first message with the given id. -/
def updateFirstById (f : Message → Message) : List Message → String → List Message
  | [], _ => []
  | m :: ms, mid => if m.id = mid then f m :: ms else m :: updateFirstById f ms mid

/-- The messages `maybeAutoSummarize` would summarize: the unpinned messages
in timestamp order, minus the 10 most recent (`sorted.slice(0, -10)`). -/
def autoSummarizeTargets (messages : List Message) : List Message :=
  (sortByTimestamp (messages.filter (fun m => !m.pinned))).take
    ((sortByTimestamp (messages.filter (fun m => !m.pinned))).length - 10)

/-- Summary concatenation of `maybeAutoSummarize`:
`existingSummary ? existingSummary + " " + summary : summary` (JavaScript
truthiness: an empty stored summary is replaced, not prefixed). -/
def concatSummary (existing : Option String) (summary : String) : String :=
  match existing with
  | some e => if e = "" then summary else e ++ " " ++ summary
  | none => summary

/-- `SmartContextWeaver.maybeAutoSummarize(sessionId)`: when the summed counter
estimate over all stored messages exceeds twice the token limit (and local
summarization is enabled), summarize all unpinned messages except the 10 most
recent — but only if more than 5 such messages exist — concatenate the new
summary onto any existing one, and delete the summarized messages. -/
def maybeAutoSummarize (cfg : Config) (σ : WeaverState) (sessionId : String) :
    WeaverState :=
  if cfg.tokenLimit * 2 < ((σ.sessions sessionId).map (fun m => cfg.counter m.content)).sum
      ∧ cfg.enableLocalSummary = true then
    if 5 < (autoSummarizeTargets (σ.sessions sessionId)).length then
      { sessions := fun s =>
          if s = sessionId then
            ((autoSummarizeTargets (σ.sessions sessionId)).map (fun m => m.id)).foldl
              removeFirstById (σ.sessions sessionId)
          else σ.sessions s
        summaries := fun s =>
          if s = sessionId then
            some (concatSummary (σ.summaries sessionId)
              (cfg.summarize (autoSummarizeTargets (σ.sessions sessionId))))
          else σ.summaries s
        contextCache := σ.contextCache }
    else σ
  else σ

/-- `SmartContextWeaver.add(sessionId, role, content, options)`: build the
message, append it to storage, invalidate the cache entry for the *default*
budget key, then maybe auto-summarize.  Returns the new state and the new
message id.  (The semantic-index `add` and the session bloom filter update are
not represented in this state record, see above.) -/
def SmartAdd (cfg : Config) (σ : WeaverState) (sessionId : String)
    (role : MessageRole) (content : String) (optPinned : Option Bool)
    (hits : PatternHits) (newId : String) (tNow : Int) : WeaverState × String :=
  let message := mkAddedMessage cfg.enableAutoImportance optPinned hits role content newId tNow
  let withMsg : WeaverState :=
    { sessions := fun s => if s = sessionId then σ.sessions s ++ [message] else σ.sessions s
      summaries := σ.summaries
      contextCache := cacheDelete σ.contextCache (SmartCacheKey cfg sessionId none) }
  (maybeAutoSummarize cfg withMsg sessionId, message.id)

/-- `SmartContextWeaver.getContext(sessionId, options)`.  `semanticRelevant`
abstracts `semanticIndex.findRelevant(currentQuery, allMessages, 5).map(m =>
m.id)`; it is consulted only when a query is present, semantic matching is
requested, and the semantic flag is on — exactly the source condition.  The
result is served from the cache (and stored into it) only when no
`currentQuery` is given. -/
def SmartGetContext (cfg : Config) (σ : WeaverState) (sessionId : String)
    (opts : SmartGetContextOptions) (semanticRelevant : List String)
    (tNow : Int) : ContextResult × WeaverState :=
  let maxTokens := opts.maxTokens.getD cfg.tokenLimit
  let importanceThreshold := opts.importanceThreshold.getD (3/10)
  let includeSemantic := opts.includeSemantic.getD true
  let cachedHit :=
    if opts.currentQuery.isNone then cacheGet σ.contextCache (sessionId, maxTokens) tNow
    else none
  match cachedHit with
  | some cached => (cached, σ)
  | none =>
      let scored := scoreMessages cfg (σ.sessions sessionId)
      let semanticBoost :=
        if includeSemantic = true ∧ opts.currentQuery.isSome ∧ cfg.enableSemantic = true then
          semanticRelevant
        else []
      let result := buildContext (countMessageTokens cfg.counter) scored
        (σ.summaries sessionId) maxTokens importanceThreshold semanticBoost
      if opts.currentQuery.isNone then
        (result,
          { σ with contextCache := cacheSet σ.contextCache (sessionId, maxTokens) result tNow })
      else (result, σ)

/-- `SmartContextWeaver.pin(sessionId, messageId)`: set `pinned` and
importance 1.0 on the message, invalidate the default-budget cache entry. -/
def SmartPin (cfg : Config) (σ : WeaverState) (sessionId messageId : String) :
    WeaverState :=
  { sessions := fun s =>
      if s = sessionId then
        updateFirstById (fun m => { m with pinned := true, importance := some 1 })
          (σ.sessions s) messageId
      else σ.sessions s
    summaries := σ.summaries
    contextCache := cacheDelete σ.contextCache (SmartCacheKey cfg sessionId none) }

/-- `SmartContextWeaver.unpin(sessionId, messageId)`. -/
def SmartUnpin (cfg : Config) (σ : WeaverState) (sessionId messageId : String) :
    WeaverState :=
  { sessions := fun s =>
      if s = sessionId then
        updateFirstById (fun m => { m with pinned := false }) (σ.sessions s) messageId
      else σ.sessions s
    summaries := σ.summaries
    contextCache := cacheDelete σ.contextCache (SmartCacheKey cfg sessionId none) }

/-- `SmartContextWeaver.clear(sessionId)`. -/
def SmartClear (cfg : Config) (σ : WeaverState) (sessionId : String) : WeaverState :=
  { sessions := fun s => if s = sessionId then [] else σ.sessions s
    summaries := fun s => if s = sessionId then none else σ.summaries s
    contextCache := cacheDelete σ.contextCache (SmartCacheKey cfg sessionId none) }

/-! ### Claim C1: the budget invariant -/

/-- Invariant of the context cache: every cached result respects the budget
recorded in its key.  It holds for the initial (empty) cache and is preserved
by every operation, so every reachable weaver state satisfies it. -/
def CacheOk (σ : WeaverState) : Prop :=
  ∀ e ∈ σ.contextCache, e.value.tokenCount ≤ e.key.2

theorem cacheGet_tokenCount_le {σ : WeaverState} (hok : CacheOk σ)
    {sessionId : String} {maxTokens : ℕ} {tNow : Int} {r : ContextResult}
    (h : cacheGet σ.contextCache (sessionId, maxTokens) tNow = some r) :
    r.tokenCount ≤ maxTokens := by
  unfold cacheGet at h
  split at h
  · exact absurd h (by simp)
  · next e hfind =>
      split at h
      · exact absurd h (by simp)
      · obtain rfl : e.value = r := by simpa using h
        have hkey : e.key = (sessionId, maxTokens) := by
          simpa using List.find?_some hfind
        have hb := hok e (List.mem_of_find?_eq_some hfind)
        rwa [hkey] at hb

theorem maybeAutoSummarize_contextCache (cfg : Config) (σ : WeaverState)
    (sessionId : String) :
    (maybeAutoSummarize cfg σ sessionId).contextCache = σ.contextCache := by
  unfold maybeAutoSummarize
  split
  · split <;> rfl
  · rfl

theorem maybeAutoSummarize_eq_or (cfg : Config) (σ : WeaverState) (sessionId : String) :
    maybeAutoSummarize cfg σ sessionId = σ ∨
      (maybeAutoSummarize cfg σ sessionId).sessions = (fun s =>
          if s = sessionId then
            ((autoSummarizeTargets (σ.sessions sessionId)).map (fun m => m.id)).foldl
              removeFirstById (σ.sessions sessionId)
          else σ.sessions s) ∧
        (maybeAutoSummarize cfg σ sessionId).summaries = (fun s =>
          if s = sessionId then
            some (concatSummary (σ.summaries sessionId)
              (cfg.summarize (autoSummarizeTargets (σ.sessions sessionId))))
          else σ.summaries s) := by
  unfold maybeAutoSummarize
  split
  · split
    · exact Or.inr ⟨rfl, rfl⟩
    · exact Or.inl rfl
  · exact Or.inl rfl

theorem cacheDelete_cacheOk {σ : WeaverState} (hok : CacheOk σ) (k : CacheKey) :
    ∀ e ∈ cacheDelete σ.contextCache k, e.value.tokenCount ≤ e.key.2 := by
  intro e he
  exact hok e (List.mem_of_mem_filter he)

theorem smartAdd_cacheOk (cfg : Config) {σ : WeaverState} (hok : CacheOk σ)
    (sessionId : String) (role : MessageRole) (content : String)
    (optPinned : Option Bool) (hits : PatternHits) (newId : String) (tNow : Int) :
    CacheOk (SmartAdd cfg σ sessionId role content optPinned hits newId tNow).1 := by
  intro e he
  rw [SmartAdd] at he
  rw [maybeAutoSummarize_contextCache] at he
  exact hok e (List.mem_of_mem_filter he)

/-- C1 (claim theorem): for every configuration, every weaver state whose
cache respects the budget invariant (all reachable states do), every session
and every `getContext` call, the returned `ContextResult` has `tokenCount ≤
maxTokens` for the effective budget `options.maxTokens ?? tokenLimit`. -/
theorem claim_C1_budget_invariant (cfg : Config) (σ : WeaverState)
    (sessionId : String) (opts : SmartGetContextOptions)
    (semanticRelevant : List String) (tNow : Int) (hok : CacheOk σ) :
    (SmartGetContext cfg σ sessionId opts semanticRelevant tNow).1.tokenCount ≤
      opts.maxTokens.getD cfg.tokenLimit := by
  unfold SmartGetContext
  cases hq : (if opts.currentQuery.isNone then
      cacheGet σ.contextCache (sessionId, opts.maxTokens.getD cfg.tokenLimit) tNow
    else none) with
  | some cached =>
      simp only [hq]
      by_cases hc : opts.currentQuery.isNone
      · rw [if_pos hc] at hq
        exact cacheGet_tokenCount_le hok hq
      · rw [if_neg hc] at hq; exact absurd hq (by simp)
  | none =>
      simp only [hq]
      split <;> exact buildContext_tokenCount_le _ _ _ _ _ _

/-- Witness for C1 at a concrete configuration and state. -/
theorem claim_C1_budget_invariant_witness :
    CacheOk { sessions := fun _ => [], summaries := fun _ => none, contextCache := [] } ∧
    (SmartGetContext
      { counter := String.length, summarize := fun _ => "", autoScore := fun _ _ => 1/2 }
      { sessions := fun _ => [], summaries := fun _ => none, contextCache := [] }
      "s" {} [] 0).1.tokenCount ≤ 4000 :=
  ⟨fun e he => absurd he (List.not_mem_nil e),
   claim_C1_budget_invariant _ _ "s" {} [] 0 (fun e he => absurd he (List.not_mem_nil e))⟩

/-! ### Claim C2: pin priority -/

theorem pinnedPack_append (countTokens : LLMMessage → ℕ) (maxTokens : ℕ)
    (l₁ l₂ : List Message) (acc : List LLMMessage) (tc pc : ℕ) :
    pinnedPack countTokens maxTokens (l₁ ++ l₂) acc tc pc =
      pinnedPack countTokens maxTokens l₂
        (pinnedPack countTokens maxTokens l₁ acc tc pc).1
        (pinnedPack countTokens maxTokens l₁ acc tc pc).2.1
        (pinnedPack countTokens maxTokens l₁ acc tc pc).2.2 := by
  induction l₁ generalizing acc tc pc with
  | nil => simp [pinnedPack]
  | cons m ms ih =>
      rw [List.cons_append, pinnedPack, pinnedPack]
      by_cases hfit : tc + countTokens { role := m.role, content := m.content } ≤ maxTokens
      · rw [if_pos hfit, if_pos hfit]; exact ih _ _ _
      · rw [if_neg hfit, if_neg hfit]; exact ih _ _ _

theorem pinnedPack_mem_acc (countTokens : LLMMessage → ℕ) (maxTokens : ℕ)
    (ms : List Message) (acc : List LLMMessage) (tc pc : ℕ) (x : LLMMessage)
    (hx : x ∈ acc) : x ∈ (pinnedPack countTokens maxTokens ms acc tc pc).1 := by
  induction ms generalizing acc tc pc with
  | nil => simpa [pinnedPack] using hx
  | cons m ms ih =>
      rw [pinnedPack]
      by_cases hfit : tc + countTokens { role := m.role, content := m.content } ≤ maxTokens
      · rw [if_pos hfit]
        exact ih _ _ _ (List.mem_append_left _ hx)
      · rw [if_neg hfit]
        exact ih _ _ _ hx

theorem mem_buildContext_of_mem_pinnedPhase (countTokens : LLMMessage → ℕ)
    (scored : List ScoredMessage) (summary : Option String) (maxTokens : ℕ)
    (importanceThreshold : ℚ) (semanticBoost : List String) (x : LLMMessage)
    (hx : x ∈ (pinnedPhase countTokens maxTokens scored summary).1) :
    x ∈ (buildContext countTokens scored summary maxTokens importanceThreshold
      semanticBoost).messages := by
  unfold buildContext
  exact List.mem_append_left _ hx

/-- C2 (counterexample): the claim fails at a session holding two pinned
messages of 8 tokens each (counter = content length, plus the 4-token message
overhead) under `maxTokens = 10`: the second pinned message costs 8 ≤ 10
tokens on its own, yet the context returned by `getContext` does not contain
it, because the budget check is cumulative over the summary and the earlier
pinned messages. -/
theorem claim_C2_counterexample :
    countMessageTokens String.length { role := .user, content := "bbbb" } ≤ 10 ∧
    (SmartGetContext
        { counter := String.length, summarize := fun _ => "", autoScore := fun _ _ => 1/2 }
        { sessions := fun _ =>
            [{ id := "m1", role := .user, content := "aaaa", timestamp := 1,
               pinned := true, importance := some 1 },
             { id := "m2", role := .user, content := "bbbb", timestamp := 2,
               pinned := true, importance := some 1 }]
          summaries := fun _ => none
          contextCache := [] }
        "s" { maxTokens := some 10 } [] 0).1.messages =
      [{ role := .user, content := "aaaa" }] := by
  constructor
  · decide
  · rfl

/-- C2 (amended): a pinned message `m` is included in the context whenever the
tokens already accumulated by the summary step and by the pinned messages
preceding `m` in timestamp order, plus `m`'s own token cost, fit within
`maxTokens`.  (The original claim — inclusion whenever `m`'s own cost alone
fits — is refuted by `claim_C2_counterexample`.) -/
theorem claim_C2_pin_priority_amended (countTokens : LLMMessage → ℕ)
    (scored : List ScoredMessage) (summary : Option String) (maxTokens : ℕ)
    (importanceThreshold : ℚ) (semanticBoost : List String)
    (l₁ l₂ : List Message) (m : Message)
    (hsplit : sortByTimestamp
        ((scored.filter (fun s => s.message.pinned)).map (fun s => s.message)) =
      l₁ ++ m :: l₂)
    (hfit : (pinnedPack countTokens maxTokens l₁
        (summaryStep countTokens summary maxTokens).1
        (summaryStep countTokens summary maxTokens).2.1 0).2.1 +
      countTokens { role := m.role, content := m.content } ≤ maxTokens) :
    ({ role := m.role, content := m.content } : LLMMessage) ∈
      (buildContext countTokens scored summary maxTokens importanceThreshold
        semanticBoost).messages := by
  apply mem_buildContext_of_mem_pinnedPhase
  unfold pinnedPhase
  rw [hsplit, pinnedPack_append, pinnedPack, if_pos hfit]
  exact pinnedPack_mem_acc _ _ _ _ _ _ _
    (List.mem_append_right _ (List.mem_singleton.mpr rfl))

/-- Witness for the amended C2 at a concrete input: a single pinned message
that fits. -/
theorem claim_C2_pin_priority_amended_witness :
    (sortByTimestamp ((([{ message :=
        { id := "m1", role := .user, content := "aaaa", timestamp := 1,
          pinned := true, importance := some 1 }, score := 1 }] :
          List ScoredMessage).filter (fun s => s.message.pinned)).map
        (fun s => s.message)) =
      [] ++
        ({ id := "m1", role := .user, content := "aaaa", timestamp := 1,
           pinned := true, importance := some 1 } : Message) :: [] ∧
      (pinnedPack (countMessageTokens String.length) 10 []
          (summaryStep (countMessageTokens String.length) none 10).1
          (summaryStep (countMessageTokens String.length) none 10).2.1 0).2.1 +
        countMessageTokens String.length { role := .user, content := "aaaa" } ≤ 10) ∧
    ({ role := .user, content := "aaaa" } : LLMMessage) ∈
      (buildContext (countMessageTokens String.length)
        [{ message := { id := "m1", role := .user, content := "aaaa", timestamp := 1,
                        pinned := true, importance := some 1 }, score := 1 }]
        none 10 (3/10) []).messages :=
  ⟨⟨by decide, by decide⟩,
    claim_C2_pin_priority_amended (countMessageTokens String.length)
      [{ message := { id := "m1", role := .user, content := "aaaa", timestamp := 1,
                      pinned := true, importance := some 1 }, score := 1 }]
      none 10 (3/10) [] [] []
      { id := "m1", role := .user, content := "aaaa", timestamp := 1,
        pinned := true, importance := some 1 }
      (by decide) (by decide)⟩

/-! ### Claim C5: chronological re-sort of the packed regular messages -/

/-- C5 (divergence of the code from the claim, evaluated at a failing input):
three unpinned messages with scores 0.9/0.7/0.5; the highest-scoring one
(timestamp 20) costs 11 tokens and is skipped under `maxTokens = 10`, the
other two (timestamps 5 and 10) are packed.  Because the source pairs
`added[i]` with `sortedRegular[i]?.message.timestamp ?? 0`, the skipped
message misaligns the pairing: the packed messages get timestamps 20 and 5
instead of their own 5 and 10, and the returned order is "bbb" (timestamp 10)
before "aaa" (timestamp 5) — not chronological, contradicting both the claim
and the source's own comment ("Sort added messages by original timestamp for
coherence"). -/
theorem claim_C5_code_divergence :
    (buildContext (fun m => m.content.length)
      [{ message := { id := "h", role := .user, content := "ccccccccccc",
                      timestamp := 20 }, score := 9/10 },
       { message := { id := "a", role := .user, content := "aaa",
                      timestamp := 5 }, score := 7/10 },
       { message := { id := "b", role := .user, content := "bbb",
                      timestamp := 10 }, score := 1/2 }]
      none 10 (3/10) []).messages =
      [{ role := .user, content := "bbb" }, { role := .user, content := "aaa" }] := by
  norm_num [buildContext, pinnedPhase, regularCandidates, regularPhase, summaryStep,
    pinnedPack, packRegular, sortLE, insertLE, regularLE, ratAbs, boostScore,
    sortByTimestamp, attachTimestamps]

/-! ### Claim C9: auto-pinning in `add` -/

theorem quickImportanceCheck_ge_iff (hits : PatternHits) (content : String) :
    ((9:ℚ)/10 ≤ quickImportanceCheck hits content) ↔
      ((hits.personal = true ∨ hits.contact = true) ∧ ¬ content.length < 20) := by
  obtain ⟨p, b, pr, ins, c⟩ := hits
  by_cases h1 : content.length < 20
  · by_cases h2 : 500 < content.length
    · exact absurd h2 (by omega)
    · cases p <;> cases b <;> cases pr <;> cases ins <;> cases c <;>
        norm_num [quickImportanceCheck, h1, h2]
  · by_cases h2 : 500 < content.length
    · cases p <;> cases b <;> cases pr <;> cases ins <;> cases c <;>
        norm_num [quickImportanceCheck, h1, h2]
    · cases p <;> cases b <;> cases pr <;> cases ins <;> cases c <;>
        norm_num [quickImportanceCheck, h1, h2]

/-- C9 (claim theorem): for every `add` call with `options.pinned` unset (and
auto-importance enabled, its default), the stored message is pinned exactly
when `quickImportanceCheck(content) ≥ 0.9`; concretely, exactly when the
personal-info or contact-info pattern matched and the content is at least 20
characters long. -/
theorem claim_C9_auto_pin (hits : PatternHits) (role : MessageRole)
    (content : String) (newId : String) (tNow : Int) :
    (mkAddedMessage true none hits role content newId tNow).pinned =
        decide ((9:ℚ)/10 ≤ quickImportanceCheck hits content) ∧
      ((mkAddedMessage true none hits role content newId tNow).pinned = true ↔
        ((hits.personal = true ∨ hits.contact = true) ∧ ¬ content.length < 20)) := by
  refine ⟨rfl, ?_⟩
  have h : (mkAddedMessage true none hits role content newId tNow).pinned =
      decide ((9:ℚ)/10 ≤ quickImportanceCheck hits content) := rfl
  rw [h, decide_eq_true_eq]
  exact quickImportanceCheck_ge_iff hits content

/-! ### Claim C10: partial cache invalidation serves stale contexts -/

set_option linter.unnecessarySeqFocus false in
/-- C10 (claim theorem): `add` (like `pin`, `unpin`, `clear`) deletes only the
cache entry keyed by the session id and the *default* token limit; hence the
concrete operation sequence getContext(maxTokens=50) → add("hello") →
getContext(maxTokens=50), all within the 30-second TTL, serves the first,
cached `ContextResult` from the third call even though "hello" is stored in
the session by then: the served context omits the newer message. -/
theorem claim_C10_stale_cache :
    (∀ (cfg : Config) (σ : WeaverState) (sessionId : String) (role : MessageRole)
      (content : String) (optPinned : Option Bool) (hits : PatternHits)
      (newId : String) (tNow : Int),
      (SmartAdd cfg σ sessionId role content optPinned hits newId tNow).1.contextCache =
        cacheDelete σ.contextCache (sessionId, cfg.tokenLimit)) ∧
    (let cfg : Config :=
      { counter := String.length, summarize := fun _ => "", autoScore := fun _ _ => 1/2 }
     let σ0 : WeaverState :=
      { sessions := fun _ =>
          [{ id := "m1", role := .user, content := "aaaa", timestamp := 0,
             pinned := false, importance := some (1/2) }]
        summaries := fun _ => none
        contextCache := [] }
     let first := SmartGetContext cfg σ0 "s" { maxTokens := some 50 } [] 0
     let withAdd := (SmartAdd cfg first.2 "s" .user "hello" (some false) {} "m2" 1).1
     let third := SmartGetContext cfg withAdd "s" { maxTokens := some 50 } [] 2
     "hello" ∈ (withAdd.sessions "s").map (fun m => m.content) ∧
       third.1 = first.1 ∧
       "hello" ∉ third.1.messages.map (fun m => m.content)) := by
  constructor
  · intro cfg σ sessionId role content optPinned hits newId tNow
    show (maybeAutoSummarize cfg _ sessionId).contextCache = _
    rw [maybeAutoSummarize_contextCache]
    rfl
  · refine ⟨?_, ?_, ?_⟩ <;>
      norm_num [SmartGetContext, SmartAdd, maybeAutoSummarize, autoSummarizeTargets,
        concatSummary, cacheGet, cacheSet, cacheDelete, SmartCacheKey, scoreMessages,
        scoreMessagesGo, buildContext, pinnedPhase, regularCandidates, regularPhase,
        summaryStep, pinnedPack, packRegular, sortLE, insertLE, regularLE, ratAbs,
        boostScore, sortByTimestamp, attachTimestamps, mkAddedMessage, addImportance,
        quickImportanceCheck, countMessageTokens, removeFirstById, contextCacheTTL,
        List.find?] <;>
      decide

/-! ### Claim C4: auto-summarization trigger and effect -/

/-- A small concrete configuration used by concrete instances: counter =
content length, constant summarizer, constant auto-score. -/
def exampleConfig (tl : ℕ) : Config :=
  { tokenLimit := tl, counter := String.length, summarize := fun _ => "S",
    autoScore := fun _ _ => 1/2 }

/-- A small concrete unpinned user message with four characters of content. -/
def mkUserMsg (id : String) (ts : Int) : Message :=
  { id := id, role := .user, content := "aaaa", timestamp := ts }

theorem removeFirstById_sublist (msgs : List Message) (mid : String) :
    (removeFirstById msgs mid).Sublist msgs := by
  induction msgs with
  | nil => simp [removeFirstById]
  | cons m ms ih =>
      rw [removeFirstById]
      by_cases h : m.id = mid
      · rw [if_pos h]; exact List.sublist_cons_self m ms
      · rw [if_neg h]; exact List.Sublist.cons₂ m ih

theorem removeFirstById_eq_filter {msgs : List Message}
    (hnodup : (msgs.map (fun m => m.id)).Nodup) (mid : String) :
    removeFirstById msgs mid = msgs.filter (fun m => m.id ≠ mid) := by
  induction msgs with
  | nil => simp [removeFirstById]
  | cons m ms ih =>
      rw [List.map_cons, List.nodup_cons] at hnodup
      rw [removeFirstById, List.filter_cons]
      by_cases h : m.id = mid
      · rw [if_pos h]
        have hd : (decide (m.id ≠ mid)) = false := by simp [h]
        rw [hd]
        simp only [Bool.false_eq_true, if_false]
        symm
        apply List.filter_eq_self.mpr
        intro a ha
        simp only [decide_eq_true_eq]
        intro hcontra
        exact hnodup.1 (h ▸ hcontra ▸ List.mem_map_of_mem (fun m => m.id) ha)
      · rw [if_neg h]
        have hd : (decide (m.id ≠ mid)) = true := by simp [h]
        rw [hd]
        simp only [if_true]
        rw [ih hnodup.2]

theorem foldl_removeFirstById_eq_filter {msgs : List Message}
    (hnodup : (msgs.map (fun m => m.id)).Nodup) (ids : List String) :
    ids.foldl removeFirstById msgs = msgs.filter (fun m => m.id ∉ ids) := by
  induction ids generalizing msgs with
  | nil => simp
  | cons i ids ih =>
      rw [List.foldl_cons]
      have hsub : ((removeFirstById msgs i).map (fun m => m.id)).Nodup :=
        ((removeFirstById_sublist msgs i).map (fun m => m.id)).nodup hnodup
      rw [ih hsub, removeFirstById_eq_filter hnodup i, List.filter_filter]
      apply List.filter_congr
      intro m _
      by_cases h1 : m.id = i <;> by_cases h2 : m.id ∈ ids <;> simp [h1, h2]

/-- C4 (counterexample): configuration with `tokenLimit = 4`, a session with
10 unpinned messages of 4 characters each, after an `add` of an 11th.  The
total counter estimate across the (all unpinned) messages is 44 > 2×4, so the
claim requires the single message older than the most recent 10 ("m0") to be
summarized and deleted — but the code does nothing: only 1 message falls
outside the recent-10 window and the source requires more than 5
(`toSummarize.length > 5`). -/
theorem claim_C4_counterexample :
    (exampleConfig 4).tokenLimit * 2 <
        ((((SmartAdd (exampleConfig 4)
            { sessions := fun _ =>
                [mkUserMsg "m0" 0, mkUserMsg "m1" 1, mkUserMsg "m2" 2, mkUserMsg "m3" 3,
                 mkUserMsg "m4" 4, mkUserMsg "m5" 5, mkUserMsg "m6" 6, mkUserMsg "m7" 7,
                 mkUserMsg "m8" 8, mkUserMsg "m9" 9]
              summaries := fun _ => none
              contextCache := [] }
            "s" .user "bbbb" (some false) {} "m10" 10).1.sessions "s").filter
          (fun m => !m.pinned)).map (fun m => (exampleConfig 4).counter m.content)).sum ∧
      ((SmartAdd (exampleConfig 4)
          { sessions := fun _ =>
              [mkUserMsg "m0" 0, mkUserMsg "m1" 1, mkUserMsg "m2" 2, mkUserMsg "m3" 3,
               mkUserMsg "m4" 4, mkUserMsg "m5" 5, mkUserMsg "m6" 6, mkUserMsg "m7" 7,
               mkUserMsg "m8" 8, mkUserMsg "m9" 9]
            summaries := fun _ => none
            contextCache := [] }
          "s" .user "bbbb" (some false) {} "m10" 10).1.sessions "s").map
        (fun m => m.id) =
        ["m0", "m1", "m2", "m3", "m4", "m5", "m6", "m7", "m8", "m9", "m10"] ∧
      (SmartAdd (exampleConfig 4)
          { sessions := fun _ =>
              [mkUserMsg "m0" 0, mkUserMsg "m1" 1, mkUserMsg "m2" 2, mkUserMsg "m3" 3,
               mkUserMsg "m4" 4, mkUserMsg "m5" 5, mkUserMsg "m6" 6, mkUserMsg "m7" 7,
               mkUserMsg "m8" 8, mkUserMsg "m9" 9]
            summaries := fun _ => none
            contextCache := [] }
          "s" .user "bbbb" (some false) {} "m10" 10).1.summaries "s" = none := by
  refine ⟨by decide, by decide, by decide⟩

/-- C4 (amended): auto-summarization is a side effect of `add` and never of
`getContext` (which only touches the context cache); when — after the message
append — the total counter estimate over *all* stored messages (pinned
included) exceeds `2× tokenLimit`, local summarization is enabled, and *more
than 5* unpinned messages are older than the 10 most recent unpinned ones,
then exactly those older unpinned messages are summarized, the new summary is
concatenated onto any prior stored summary, and they are deleted from the
stored message set.  (The original claim measured the trigger over unpinned
messages only and omitted the more-than-5 guard; `claim_C4_counterexample`
refutes it.) -/
theorem claim_C4_amended :
    (∀ (cfg : Config) (σ : WeaverState) (sessionId : String)
      (opts : SmartGetContextOptions) (semanticRelevant : List String) (tNow : Int),
      (SmartGetContext cfg σ sessionId opts semanticRelevant tNow).2.sessions =
          σ.sessions ∧
        (SmartGetContext cfg σ sessionId opts semanticRelevant tNow).2.summaries =
          σ.summaries) ∧
    (∀ (cfg : Config) (σ : WeaverState) (sessionId : String),
      cfg.tokenLimit * 2 <
          ((σ.sessions sessionId).map (fun m => cfg.counter m.content)).sum →
        cfg.enableLocalSummary = true →
        5 < (autoSummarizeTargets (σ.sessions sessionId)).length →
        ((σ.sessions sessionId).map (fun m => m.id)).Nodup →
        (maybeAutoSummarize cfg σ sessionId).summaries sessionId =
            some (concatSummary (σ.summaries sessionId)
              (cfg.summarize (autoSummarizeTargets (σ.sessions sessionId)))) ∧
          (maybeAutoSummarize cfg σ sessionId).sessions sessionId =
            (σ.sessions sessionId).filter (fun m =>
              m.id ∉ (autoSummarizeTargets (σ.sessions sessionId)).map
                (fun x => x.id))) ∧
    (∀ (cfg : Config) (σ : WeaverState) (sessionId : String) (role : MessageRole)
      (content : String) (optPinned : Option Bool) (hits : PatternHits)
      (newId : String) (tNow : Int),
      (SmartAdd cfg σ sessionId role content optPinned hits newId tNow).1 =
        maybeAutoSummarize cfg
          { sessions := fun s =>
              if s = sessionId then
                σ.sessions s ++
                  [mkAddedMessage cfg.enableAutoImportance optPinned hits role content
                    newId tNow]
              else σ.sessions s
            summaries := σ.summaries
            contextCache := cacheDelete σ.contextCache (SmartCacheKey cfg sessionId none) }
          sessionId) := by
  refine ⟨?_, ?_, ?_⟩
  · intro cfg σ sessionId opts semanticRelevant tNow
    unfold SmartGetContext
    cases hq : (if opts.currentQuery.isNone then
        cacheGet σ.contextCache (sessionId, opts.maxTokens.getD cfg.tokenLimit) tNow
      else none) with
    | some cached => simp only [hq]; exact ⟨trivial, trivial⟩
    | none =>
        simp only [hq]
        split <;> exact ⟨rfl, rfl⟩
  · intro cfg σ sessionId h1 h2 h3 hnodup
    unfold maybeAutoSummarize
    rw [if_pos ⟨h1, h2⟩, if_pos h3]
    refine ⟨by simp, ?_⟩
    show (if sessionId = sessionId then
        ((autoSummarizeTargets (σ.sessions sessionId)).map (fun m => m.id)).foldl
          removeFirstById (σ.sessions sessionId)
      else σ.sessions sessionId) = _
    rw [if_pos rfl]
    exact foldl_removeFirstById_eq_filter hnodup _
  · intro cfg σ sessionId role content optPinned hits newId tNow
    rfl

/-- Witness for the amended C4: `tokenLimit = 1`, 16 unpinned messages of four
characters each; the 6 oldest are summarized ("S") and deleted. -/
theorem claim_C4_amended_witness :
    ((exampleConfig 1).tokenLimit * 2 <
        (([mkUserMsg "a" 0, mkUserMsg "b" 1, mkUserMsg "c" 2, mkUserMsg "d" 3,
            mkUserMsg "e" 4, mkUserMsg "f" 5, mkUserMsg "g" 6, mkUserMsg "h" 7,
            mkUserMsg "i" 8, mkUserMsg "j" 9, mkUserMsg "k" 10, mkUserMsg "l" 11,
            mkUserMsg "m" 12, mkUserMsg "n" 13, mkUserMsg "o" 14,
            mkUserMsg "p" 15] : List Message).map
          (fun m => (exampleConfig 1).counter m.content)).sum ∧
      5 < (autoSummarizeTargets
        [mkUserMsg "a" 0, mkUserMsg "b" 1, mkUserMsg "c" 2, mkUserMsg "d" 3,
         mkUserMsg "e" 4, mkUserMsg "f" 5, mkUserMsg "g" 6, mkUserMsg "h" 7,
         mkUserMsg "i" 8, mkUserMsg "j" 9, mkUserMsg "k" 10, mkUserMsg "l" 11,
         mkUserMsg "m" 12, mkUserMsg "n" 13, mkUserMsg "o" 14,
         mkUserMsg "p" 15]).length) ∧
    (maybeAutoSummarize (exampleConfig 1)
        { sessions := fun _ =>
            [mkUserMsg "a" 0, mkUserMsg "b" 1, mkUserMsg "c" 2, mkUserMsg "d" 3,
             mkUserMsg "e" 4, mkUserMsg "f" 5, mkUserMsg "g" 6, mkUserMsg "h" 7,
             mkUserMsg "i" 8, mkUserMsg "j" 9, mkUserMsg "k" 10, mkUserMsg "l" 11,
             mkUserMsg "m" 12, mkUserMsg "n" 13, mkUserMsg "o" 14, mkUserMsg "p" 15]
          summaries := fun _ => none
          contextCache := [] } "s").summaries "s" = some "S" ∧
    ((maybeAutoSummarize (exampleConfig 1)
        { sessions := fun _ =>
            [mkUserMsg "a" 0, mkUserMsg "b" 1, mkUserMsg "c" 2, mkUserMsg "d" 3,
             mkUserMsg "e" 4, mkUserMsg "f" 5, mkUserMsg "g" 6, mkUserMsg "h" 7,
             mkUserMsg "i" 8, mkUserMsg "j" 9, mkUserMsg "k" 10, mkUserMsg "l" 11,
             mkUserMsg "m" 12, mkUserMsg "n" 13, mkUserMsg "o" 14, mkUserMsg "p" 15]
          summaries := fun _ => none
          contextCache := [] } "s").sessions "s").map (fun m => m.id) =
      ["g", "h", "i", "j", "k", "l", "m", "n", "o", "p"] := by
  refine ⟨⟨by decide, by decide⟩, ?_, ?_⟩
  · have h := (claim_C4_amended.2.1 (exampleConfig 1)
      { sessions := fun _ =>
          [mkUserMsg "a" 0, mkUserMsg "b" 1, mkUserMsg "c" 2, mkUserMsg "d" 3,
           mkUserMsg "e" 4, mkUserMsg "f" 5, mkUserMsg "g" 6, mkUserMsg "h" 7,
           mkUserMsg "i" 8, mkUserMsg "j" 9, mkUserMsg "k" 10, mkUserMsg "l" 11,
           mkUserMsg "m" 12, mkUserMsg "n" 13, mkUserMsg "o" 14, mkUserMsg "p" 15]
        summaries := fun _ => none
        contextCache := [] }
      "s" (by decide) rfl (by decide) (by decide)).1
    rw [h]; rfl
  · have h := (claim_C4_amended.2.1 (exampleConfig 1)
      { sessions := fun _ =>
          [mkUserMsg "a" 0, mkUserMsg "b" 1, mkUserMsg "c" 2, mkUserMsg "d" 3,
           mkUserMsg "e" 4, mkUserMsg "f" 5, mkUserMsg "g" 6, mkUserMsg "h" 7,
           mkUserMsg "i" 8, mkUserMsg "j" 9, mkUserMsg "k" 10, mkUserMsg "l" 11,
           mkUserMsg "m" 12, mkUserMsg "n" 13, mkUserMsg "o" 14, mkUserMsg "p" 15]
        summaries := fun _ => none
        contextCache := [] }
      "s" (by decide) rfl (by decide) (by decide)).2
    rw [h]; rfl

/-! ### Claim C6: monotone auto-importance -/

/-- Modelled from the spec's wording of the auto-importance contract: the
score of an unscored, unpinned message is the maximum over the base value 0.4,
the weights of all matching rules, and 0.8 per matching custom pattern, capped
at 1.0.  Stated with `filter`/`map`/`max`-folds to compare against the
implementation's conditional fold. -/
def specImportanceScore (rules : List RuleOutcome) (customMatched : List Bool) : ℚ :=
  min 1 ((customMatched.filter (fun c => c)).foldl (fun acc _ => max acc (8/10))
    (((rules.filter (fun r => r.matched)).map (fun r => r.weight)).foldl max (4/10)))

theorem calculateScore_eq_folds (m : Message) (rules : List RuleOutcome)
    (customMatched : List Bool) (h_imp : m.importance = none)
    (h_pin : m.pinned = false) :
    calculateScore m rules customMatched =
      min 1 (customMatched.foldl (fun acc c => if c then max acc (8/10) else acc)
        (rules.foldl (fun acc r => if r.matched then max acc r.weight else acc)
          (4/10))) := by
  simp [calculateScore, h_imp, h_pin]

theorem foldl_ruleStep_eq_filter (rules : List RuleOutcome) (a : ℚ) :
    rules.foldl (fun acc r => if r.matched then max acc r.weight else acc) a =
      ((rules.filter (fun r => r.matched)).map (fun r => r.weight)).foldl max a := by
  induction rules generalizing a with
  | nil => rfl
  | cons r rs ih =>
      rw [List.foldl_cons, List.filter_cons]
      cases hm : r.matched
      · simp only [hm, Bool.false_eq_true, if_false]
        exact ih a
      · simp only [hm, if_true, List.map_cons, List.foldl_cons]
        exact ih (max a r.weight)

theorem foldl_customStep_eq_filter (customMatched : List Bool) (a : ℚ) :
    customMatched.foldl (fun acc c => if c then max acc (8/10) else acc) a =
      (customMatched.filter (fun c => c)).foldl (fun acc _ => max acc (8/10)) a := by
  induction customMatched generalizing a with
  | nil => rfl
  | cons c cs ih =>
      rw [List.foldl_cons, List.filter_cons]
      cases c
      · simpa using ih a
      · simpa using ih (max a (8/10))

theorem foldl_ruleStep_mono {rules₁ rules₂ : List RuleOutcome}
    (hr : List.Forall₂ (fun r₁ r₂ => r₁.weight = r₂.weight ∧
      (r₁.matched = true → r₂.matched = true)) rules₁ rules₂)
    {a₁ a₂ : ℚ} (ha : a₁ ≤ a₂) :
    rules₁.foldl (fun acc r => if r.matched then max acc r.weight else acc) a₁ ≤
      rules₂.foldl (fun acc r => if r.matched then max acc r.weight else acc) a₂ := by
  induction hr generalizing a₁ a₂ with
  | nil => simpa using ha
  | @cons r₁ r₂ l₁ l₂ hrel htail ih =>
      rw [List.foldl_cons, List.foldl_cons]
      obtain ⟨hw, hm⟩ := hrel
      by_cases h1 : r₁.matched = true
      · rw [if_pos h1, if_pos (hm h1), hw]
        exact ih (max_le_max ha le_rfl)
      · rw [if_neg h1]
        by_cases h2 : r₂.matched = true
        · rw [if_pos h2]
          exact ih (ha.trans (le_max_left _ _))
        · rw [if_neg h2]
          exact ih ha

theorem foldl_customStep_mono {custom₁ custom₂ : List Bool}
    (hc : List.Forall₂ (fun c₁ c₂ => c₁ = true → c₂ = true) custom₁ custom₂)
    {a₁ a₂ : ℚ} (ha : a₁ ≤ a₂) :
    custom₁.foldl (fun acc c => if c then max acc (8/10) else acc) a₁ ≤
      custom₂.foldl (fun acc c => if c then max acc (8/10) else acc) a₂ := by
  induction hc generalizing a₁ a₂ with
  | nil => simpa using ha
  | @cons c₁ c₂ l₁ l₂ hrel htail ih =>
      rw [List.foldl_cons, List.foldl_cons]
      by_cases h1 : c₁ = true
      · rw [if_pos h1, if_pos (hrel h1)]
        exact ih (max_le_max ha le_rfl)
      · rw [if_neg h1]
        by_cases h2 : c₂ = true
        · rw [if_pos h2]
          exact ih (ha.trans (le_max_left _ _))
        · rw [if_neg h2]
          exact ih ha

/-- C6 (claim theorem): for a message without explicit importance and not
pinned, enlarging the set of matching rules (same weights) or matching custom
patterns never lowers the computed auto-importance score; the score never
exceeds 1.0; and it equals the capped maximum over the base 0.4, the matching
rule weights, and 0.8 per matching custom pattern (`specImportanceScore`). -/
theorem claim_C6_importance_monotone (m : Message) (h_imp : m.importance = none)
    (h_pin : m.pinned = false) (rules₁ rules₂ : List RuleOutcome)
    (custom₁ custom₂ : List Bool)
    (hr : List.Forall₂ (fun r₁ r₂ => r₁.weight = r₂.weight ∧
      (r₁.matched = true → r₂.matched = true)) rules₁ rules₂)
    (hc : List.Forall₂ (fun c₁ c₂ => c₁ = true → c₂ = true) custom₁ custom₂) :
    calculateScore m rules₁ custom₁ ≤ calculateScore m rules₂ custom₂ ∧
      calculateScore m rules₂ custom₂ ≤ 1 ∧
      calculateScore m rules₂ custom₂ = specImportanceScore rules₂ custom₂ := by
  rw [calculateScore_eq_folds m rules₁ custom₁ h_imp h_pin,
    calculateScore_eq_folds m rules₂ custom₂ h_imp h_pin]
  refine ⟨?_, min_le_left _ _, ?_⟩
  · exact min_le_min le_rfl (foldl_customStep_mono hc (foldl_ruleStep_mono hr le_rfl))
  · rw [specImportanceScore, foldl_ruleStep_eq_filter, foldl_customStep_eq_filter]

/-- Witness for C6: a single personal-info-strength rule (weight 0.9), not
matching on the left and matching on the right. -/
theorem claim_C6_importance_monotone_witness :
    ({ id := "m", role := .user, content := "x", timestamp := 0 } : Message).importance
        = none ∧
      ({ id := "m", role := .user, content := "x", timestamp := 0 } : Message).pinned
        = false ∧
      calculateScore { id := "m", role := .user, content := "x", timestamp := 0 }
          [{ weight := 9/10, matched := false }] [] ≤
        calculateScore { id := "m", role := .user, content := "x", timestamp := 0 }
          [{ weight := 9/10, matched := true }] [] ∧
      calculateScore { id := "m", role := .user, content := "x", timestamp := 0 }
        [{ weight := 9/10, matched := true }] [] ≤ 1 :=
  ⟨rfl, rfl,
    (claim_C6_importance_monotone _ rfl rfl
      [{ weight := 9/10, matched := false }] [{ weight := 9/10, matched := true }] [] []
      (List.Forall₂.cons ⟨rfl, fun _ => rfl⟩ List.Forall₂.nil) List.Forall₂.nil).1,
    (claim_C6_importance_monotone _ rfl rfl
      [{ weight := 9/10, matched := false }] [{ weight := 9/10, matched := true }] [] []
      (List.Forall₂.cons ⟨rfl, fun _ => rfl⟩ List.Forall₂.nil) List.Forall₂.nil).2.1⟩

/-! ### Conversation pairs (`src/smart/conversation-pairs.ts`)

The regular-expression machinery (`REFERENCE_PATTERNS`, `TOPIC_PATTERNS`, the
list/steps test) and the lower-cased substring test on topics run in the host
regex/string engine; they enter the model as opaque function parameters
`detectRef` (`detectReference`), `topicOf` (`extractTopic`), `hasList`
(`containsListOrSteps`) and `topicIncl`
(`a.toLowerCase().includes(b.toLowerCase())`).  The `pairs`, `messageTooPair`
and `topicIndex` maps of the manager are written but never read by the code
under verification and are omitted. -/

/-- `ConversationPair` (`src/smart/conversation-pairs.ts`). -/
structure ConversationPair where
  id : String
  userMessage : Message
  assistantMessage : Option Message
  topic : Option String := none
  importance : ℚ
  hasReference : Bool
  referencedPairIds : List String
  timestamp : Int
deriving DecidableEq, Repr

/-- First importance step of `createPair`: `userMessage.importance ?? 0.5`,
raised to at least 0.7 when the user message contains a back-reference. -/
def pairImportanceRef (detectRef : String → Bool) (u : Message) : ℚ :=
  if detectRef u.content then max (u.importance.getD (1/2)) (7/10)
  else u.importance.getD (1/2)

/-- Second importance step of `createPair`: +0.1 (capped at 1) when the
assistant reply exceeds 200 characters. -/
def pairImportanceLong (i : ℚ) : Option Message → ℚ
  | some am => if 200 < am.content.length then min (i + 1/10) 1 else i
  | none => i

/-- Third importance step of `createPair`: +0.15 (capped at 1) when the
assistant reply contains a list or steps. -/
def pairImportanceList (hasList : String → Bool) (i : ℚ) : Option Message → ℚ
  | some am => if hasList am.content then min (i + 15/100) 1 else i
  | none => i

/-- `ConversationPairManager.createPair` (the topic-index side table is not
modelled; it is never read). -/
def createPair (detectRef : String → Bool) (topicOf : String → Option String)
    (hasList : String → Bool) (userMessage : Message)
    (assistantMessage : Option Message) (index : ℕ) : ConversationPair :=
  { id := "pair-" ++ toString index
    userMessage := userMessage
    assistantMessage := assistantMessage
    topic := topicOf userMessage.content
    importance := pairImportanceList hasList
      (pairImportanceLong (pairImportanceRef detectRef userMessage) assistantMessage)
      assistantMessage
    hasReference := detectRef userMessage.content
    referencedPairIds := []
    timestamp := userMessage.timestamp }

/-- The forward scan of `ConversationPairManager.buildPairs`: a `user` message
opens a pending pair, the next `assistant` closes it, a second consecutive
`user` force-closes the previous pair as unanswered, `system` messages become
standalone pairs (importance 1.0, no index increment), a standalone
`assistant` becomes its own pair (importance 0.5), `function`/`tool` messages
fall through every branch, and a trailing pending user message is closed at
the end. -/
def buildPairsGo (detectRef : String → Bool) (topicOf : String → Option String)
    (hasList : String → Bool) :
    List Message → Option Message → ℕ → List ConversationPair
  | [], pending, pairIndex =>
      match pending with
      | some u => [createPair detectRef topicOf hasList u none pairIndex]
      | none => []
  | m :: rest, pending, pairIndex =>
      match m.role with
      | .system =>
          { id := "pair-sys-" ++ m.id, userMessage := m, assistantMessage := none,
            importance := 1, hasReference := false, referencedPairIds := [],
            timestamp := m.timestamp } ::
            buildPairsGo detectRef topicOf hasList rest pending pairIndex
      | .user =>
          match pending with
          | some u =>
              createPair detectRef topicOf hasList u none pairIndex ::
                buildPairsGo detectRef topicOf hasList rest (some m) (pairIndex + 1)
          | none => buildPairsGo detectRef topicOf hasList rest (some m) pairIndex
      | .assistant =>
          match pending with
          | some u =>
              createPair detectRef topicOf hasList u (some m) pairIndex ::
                buildPairsGo detectRef topicOf hasList rest none (pairIndex + 1)
          | none =>
              { id := "pair-" ++ toString pairIndex, userMessage := m,
                assistantMessage := none, importance := 1/2, hasReference := false,
                referencedPairIds := [], timestamp := m.timestamp } ::
                buildPairsGo detectRef topicOf hasList rest none (pairIndex + 1)
      | .function => buildPairsGo detectRef topicOf hasList rest pending pairIndex
      | .tool => buildPairsGo detectRef topicOf hasList rest pending pairIndex

/-- In-place update of the element at one index (models mutating
`pairs[i]`). -/
def modifyIdx (g : α → α) : ℕ → List α → List α
  | _, [] => []
  | 0, x :: xs => g x :: xs
  | n + 1, x :: xs => x :: modifyIdx g n xs

/-- The backward inner loop of `resolveReferences` for referencing pair `i`:
visit previous indices (at most 10, newest first); on the first previous pair
whose assistant reply contains a list, record the reference and boost that
pair's importance by 0.2 (capped at 1) and stop; on a topic match, record the
reference and continue. -/
def resolveInner (hasList : String → Bool) (topicIncl : String → String → Bool)
    (i : ℕ) : List ℕ → List ConversationPair → List ConversationPair
  | [], ps => ps
  | j :: js, ps =>
      match ps.get? j, ps.get? i with
      | some prevPair, some pair =>
          if (match prevPair.assistantMessage with
              | some am => hasList am.content
              | none => false) then
            modifyIdx (fun pv => { pv with importance := min (pv.importance + 2/10) 1 }) j
              (modifyIdx (fun p =>
                { p with referencedPairIds := p.referencedPairIds ++ [prevPair.id] }) i ps)
          else if (match pair.topic, prevPair.topic with
              | some t, some pt => topicIncl t pt
              | _, _ => false) then
            resolveInner hasList topicIncl i js
              (modifyIdx (fun p =>
                { p with referencedPairIds := p.referencedPairIds ++ [prevPair.id] }) i ps)
          else resolveInner hasList topicIncl i js ps
      | _, _ => resolveInner hasList topicIncl i js ps

/-- `ConversationPairManager.resolveReferences`: for each pair index `i` with
a detected reference, run the backward loop over `j = i-1 … max(i-10, 0)`. -/
def resolveReferences (hasList : String → Bool) (topicIncl : String → String → Bool)
    (ps : List ConversationPair) : List ConversationPair :=
  (List.range ps.length).foldl (fun acc i =>
    match acc.get? i with
    | some pair =>
        if pair.hasReference then
          resolveInner hasList topicIncl i ((List.range i).reverse.take 10) acc
        else acc
    | none => acc) ps

/-- `ConversationPairManager.buildPairs`: scan, then resolve references. -/
def buildPairs (detectRef : String → Bool) (topicOf : String → Option String)
    (hasList : String → Bool) (topicIncl : String → String → Bool)
    (messages : List Message) : List ConversationPair :=
  resolveReferences hasList topicIncl (buildPairsGo detectRef topicOf hasList messages none 0)

/-- `ConversationPairManager.pairsToMessages`: user message, then the
assistant message when present, per pair in order. -/
def pairsToMessages : List ConversationPair → List Message
  | [] => []
  | p :: ps => p.userMessage :: (p.assistantMessage.toList ++ pairsToMessages ps)

/-! ### Claim C3: pair completeness -/

/-- The message content of a pair: reference resolution may change importance
and `referencedPairIds`, but never this projection. -/
def pairMsgs (p : ConversationPair) : Message × Option Message :=
  (p.userMessage, p.assistantMessage)

theorem pairsToMessages_congr : ∀ {ps qs : List ConversationPair},
    ps.map pairMsgs = qs.map pairMsgs → pairsToMessages ps = pairsToMessages qs := by
  intro ps
  induction ps with
  | nil =>
      intro qs h
      cases qs with
      | nil => rfl
      | cons q qs => simp at h
  | cons p ps ih =>
      intro qs h
      cases qs with
      | nil => simp at h
      | cons q qs =>
          rw [List.map_cons, List.map_cons] at h
          obtain ⟨h1, h2⟩ := List.cons.inj h
          rw [pairsToMessages, pairsToMessages]
          have hu : p.userMessage = q.userMessage := congrArg Prod.fst h1
          have ha : p.assistantMessage = q.assistantMessage := congrArg Prod.snd h1
          rw [hu, ha, ih h2]

theorem modifyIdx_map_eq {g : α → α} {f : α → β} (hg : ∀ x, f (g x) = f x) :
    ∀ (n : ℕ) (l : List α), (modifyIdx g n l).map f = l.map f := by
  intro n l
  induction l generalizing n with
  | nil => cases n <;> rfl
  | cons x xs ih =>
      cases n with
      | zero => simp [modifyIdx, hg]
      | succ n => simp [modifyIdx, ih]

theorem modifyIdx_boost_map (c : ℚ) (n : ℕ) (ps : List ConversationPair) :
    (modifyIdx (fun pv => { pv with importance := min (pv.importance + c) 1 }) n
        ps).map pairMsgs =
      ps.map pairMsgs := by
  apply modifyIdx_map_eq
  intro x
  rfl

theorem modifyIdx_pushRef_map (s : String) (n : ℕ) (ps : List ConversationPair) :
    (modifyIdx (fun p => { p with referencedPairIds := p.referencedPairIds ++ [s] }) n
        ps).map pairMsgs =
      ps.map pairMsgs := by
  apply modifyIdx_map_eq
  intro x
  rfl

theorem resolveInner_map_pairMsgs (hasList : String → Bool)
    (topicIncl : String → String → Bool) (i : ℕ) :
    ∀ (js : List ℕ) (ps : List ConversationPair),
      (resolveInner hasList topicIncl i js ps).map pairMsgs = ps.map pairMsgs := by
  intro js
  induction js with
  | nil => intro ps; rfl
  | cons j js ih =>
      intro ps
      rw [resolveInner]
      split
      · split
        · rw [modifyIdx_boost_map, modifyIdx_pushRef_map]
        · split
          · rw [ih, modifyIdx_pushRef_map]
          · exact ih ps
      · exact ih ps

theorem resolveReferences_map_pairMsgs (hasList : String → Bool)
    (topicIncl : String → String → Bool) (ps : List ConversationPair) :
    (resolveReferences hasList topicIncl ps).map pairMsgs = ps.map pairMsgs := by
  unfold resolveReferences
  generalize List.range ps.length = idxs
  induction idxs generalizing ps with
  | nil => rfl
  | cons i idxs ih =>
      rw [List.foldl_cons]
      rw [ih]
      cases hpi : ps.get? i with
      | none => rfl
      | some pair =>
          show (if pair.hasReference = true then
              resolveInner hasList topicIncl i ((List.range i).reverse.take 10) ps
            else ps).map pairMsgs = ps.map pairMsgs
          by_cases hr : pair.hasReference = true
          · rw [if_pos hr]
            exact resolveInner_map_pairMsgs hasList topicIncl i _ ps
          · rw [if_neg hr]

/-- The roles the claim ranges over: `user` and `assistant`. -/
def isChatRole : MessageRole → Bool
  | .user => true
  | .assistant => true
  | _ => false

theorem isChatRole_system : isChatRole .system = false := rfl

theorem isChatRole_user : isChatRole .user = true := rfl

theorem isChatRole_assistant : isChatRole .assistant = true := rfl

theorem isChatRole_function : isChatRole .function = false := rfl

theorem isChatRole_tool : isChatRole .tool = false := rfl

theorem buildPairsGo_filter (detectRef : String → Bool)
    (topicOf : String → Option String) (hasList : String → Bool) :
    ∀ (msgs : List Message) (pending : Option Message) (pairIndex : ℕ),
      (pairsToMessages (buildPairsGo detectRef topicOf hasList msgs pending
          pairIndex)).filter (fun m => isChatRole m.role) =
        (pending.toList ++ msgs).filter (fun m => isChatRole m.role) := by
  intro msgs
  induction msgs with
  | nil =>
      intro pending pairIndex
      cases pending with
      | none => rfl
      | some u => simp [buildPairsGo, pairsToMessages, createPair]
  | cons m rest ih =>
      intro pending pairIndex
      cases hrole : m.role with
      | system =>
          simp only [buildPairsGo, hrole, pairsToMessages, Option.toList_none,
            List.nil_append, List.filter_cons, List.filter_append, hrole,
            isChatRole_system, Bool.false_eq_true, if_false, ih]
      | user =>
          cases pending with
          | none =>
              simpa [buildPairsGo, hrole, List.filter_append] using
                ih (some m) pairIndex
          | some u =>
              have ihm := ih (some m) (pairIndex + 1)
              simp only [Option.toList_some, List.singleton_append] at ihm
              simp only [buildPairsGo, hrole, pairsToMessages, createPair,
                Option.toList_none, Option.toList_some, List.nil_append,
                List.singleton_append, List.filter_cons, ihm]
      | assistant =>
          cases pending with
          | none =>
              have ihm := ih none (pairIndex + 1)
              simp only [Option.toList_none, List.nil_append] at ihm
              simp only [buildPairsGo, hrole, pairsToMessages, Option.toList_none,
                List.nil_append, List.filter_cons, ihm]
          | some u =>
              have ihm := ih none (pairIndex + 1)
              simp only [Option.toList_none, List.nil_append] at ihm
              simp only [buildPairsGo, hrole, pairsToMessages, createPair,
                Option.toList_some, Option.toList_none, List.singleton_append,
                List.nil_append, List.filter_cons, List.cons_append, ihm]
      | function =>
          simp only [buildPairsGo, hrole]
          rw [ih pending pairIndex, List.filter_append, List.filter_append,
            List.filter_cons]
          simp [hrole, isChatRole_function]
      | tool =>
          simp only [buildPairsGo, hrole]
          rw [ih pending pairIndex, List.filter_append, List.filter_append,
            List.filter_cons]
          simp [hrole, isChatRole_tool]

/-- C3 (claim theorem): for every message list and every outcome of the host
pattern predicates, `pairsToMessages(buildPairs(messages))`, restricted to the
`user` and `assistant` roles, is exactly the input restricted to those roles:
every user/assistant message appears exactly once, in the original relative
order. -/
theorem claim_C3_pair_completeness (detectRef : String → Bool)
    (topicOf : String → Option String) (hasList : String → Bool)
    (topicIncl : String → String → Bool) (messages : List Message) :
    (pairsToMessages (buildPairs detectRef topicOf hasList topicIncl
        messages)).filter (fun m => isChatRole m.role) =
      messages.filter (fun m => isChatRole m.role) := by
  unfold buildPairs
  rw [pairsToMessages_congr (resolveReferences_map_pairMsgs hasList topicIncl _)]
  simpa using buildPairsGo_filter detectRef topicOf hasList messages none 0

/-! ### Claim C8: `ConversationPairManager.selectPairs`

The float literal `0.6` in `maxTokens * 0.6` is modelled as the exact rational
`6/10` (comparisons are modelled over `ℚ`; IEEE rounding of `0.6` is not).
`!referencedPairs.includes(p)` compares object references in JavaScript; the
model compares by value, which coincides except for duplicated identical pair
values.  The JavaScript subtraction `maxPairs - minRecentPairs` is modelled
over `ℤ`. -/

/-- `ConversationPairManager.countPairTokens`. -/
def countPairTokens (pairs : List ConversationPair) (tokenCounter : String → ℕ) : ℕ :=
  pairs.foldl (fun total pair =>
    total + tokenCounter pair.userMessage.content +
      match pair.assistantMessage with
      | some am => tokenCounter am.content
      | none => 0) 0

/-- `countPairTokens([pair], tokenCounter)` as used per candidate. -/
def pairTokens (tokenCounter : String → ℕ) (p : ConversationPair) : ℕ :=
  countPairTokens [p] tokenCounter

/-- One greedy selection loop of `selectPairs`: push each candidate whose
admission condition (a function of the tokens-if-added and of the current
selection length) holds, accumulating the token count. -/
def selectFold (pt : ConversationPair → ℕ) (cond : ℕ → ℕ → Bool) :
    List ConversationPair → List ConversationPair → ℕ →
      List ConversationPair × ℕ
  | [], selected, ct => (selected, ct)
  | p :: ps, selected, ct =>
      if cond (ct + pt p) selected.length then
        selectFold pt cond ps (selected ++ [p]) (ct + pt p)
      else selectFold pt cond ps selected ct

/-- `selectFold` threading its (selected, tokens) state. -/
def selectPhase (pt : ConversationPair → ℕ) (cond : ℕ → ℕ → Bool)
    (src : List ConversationPair) (st : List ConversationPair × ℕ) :
    List ConversationPair × ℕ :=
  selectFold pt cond src st.1 st.2

/-- Step 1 of `selectPairs`: system pairs. -/
def systemPairs (pairs : List ConversationPair) : List ConversationPair :=
  pairs.filter (fun p => p.userMessage.role = .system)

/-- The non-system pairs. -/
def nonSystemPairs (pairs : List ConversationPair) : List ConversationPair :=
  pairs.filter (fun p => ¬ p.userMessage.role = .system)

/-- Step 2 of `selectPairs`: `nonSystemPairs.slice(-minRecentPairs)`
(JavaScript slice: a zero count selects the whole array). -/
def recentPairs (nonSystem : List ConversationPair) (minRecentPairs : ℕ) :
    List ConversationPair :=
  if minRecentPairs = 0 then nonSystem
  else nonSystem.drop (nonSystem.length - minRecentPairs)

/-- Step 2 of `selectPairs`: `nonSystemPairs.slice(0, -minRecentPairs)`
(JavaScript slice: a zero count selects nothing). -/
def olderPairs (nonSystem : List ConversationPair) (minRecentPairs : ℕ) :
    List ConversationPair :=
  if minRecentPairs = 0 then []
  else nonSystem.take (nonSystem.length - minRecentPairs)

/-- Step 3 of `selectPairs`: when the (truthy) current query itself matches a
reference pattern, the older pairs whose assistant reply contains a list. -/
def referencedOf (detectRef : String → Bool) (hasList : String → Bool)
    (older : List ConversationPair) (currentQuery : Option String) :
    List ConversationPair :=
  match currentQuery with
  | some q =>
      if q ≠ "" ∧ detectRef q = true then
        older.filter (fun p =>
          match p.assistantMessage with
          | some am => hasList am.content
          | none => false)
      else []
  | none => []

/-- Step 4 of `selectPairs`: the remaining older pairs sorted by importance
descending (comparator `(a, b) => b.importance - a.importance`). -/
def scoredOlderOf (detectRef : String → Bool) (hasList : String → Bool)
    (older : List ConversationPair) (currentQuery : Option String) :
    List ConversationPair :=
  sortLE (fun a b => b.importance ≤ a.importance)
    (older.filter (fun p => ¬ p ∈ referencedOf detectRef hasList older currentQuery))

/-- `ConversationPairManager.selectPairs`: system pairs unconditionally, then
referenced pairs (budget and `maxPairs` check), then importance-ranked older
pairs (cumulative tokens within 60% of the budget and a
`maxPairs − minRecentPairs` length cap), then the recent pairs (budget check),
finally re-sorted chronologically. -/
def selectPairs (detectRef : String → Bool) (hasList : String → Bool)
    (pairs : List ConversationPair) (maxPairs : ℕ) (maxTokens : ℕ)
    (currentQuery : Option String) (tokenCounter : String → ℕ)
    (minRecentPairs : ℕ) : List ConversationPair :=
  if pairs.isEmpty then []
  else
    sortLE (fun a b => a.timestamp ≤ b.timestamp)
      (selectPhase (pairTokens tokenCounter) (fun t _ => t ≤ maxTokens)
        (recentPairs (nonSystemPairs pairs) minRecentPairs)
        (selectPhase (pairTokens tokenCounter)
          (fun t len =>
            ((t : ℚ) ≤ (maxTokens : ℚ) * (6/10) ∧
              (len : ℤ) < (maxPairs : ℤ) - (minRecentPairs : ℤ)))
          (scoredOlderOf detectRef hasList
            (olderPairs (nonSystemPairs pairs) minRecentPairs) currentQuery)
          (selectPhase (pairTokens tokenCounter)
            (fun t len => (t ≤ maxTokens ∧ len < maxPairs))
            (referencedOf detectRef hasList
              (olderPairs (nonSystemPairs pairs) minRecentPairs) currentQuery)
            (systemPairs pairs,
              countPairTokens (systemPairs pairs) tokenCounter)))).1

theorem insertLE_perm (le : α → α → Bool) (x : α) (l : List α) :
    (insertLE le x l).Perm (x :: l) := by
  induction l with
  | nil => exact List.Perm.refl _
  | cons y ys ih =>
      rw [insertLE]
      by_cases h : le x y = true
      · rw [if_pos h]
      · rw [if_neg h]
        exact (ih.cons y).trans (List.Perm.swap x y ys)

theorem sortLE_perm (le : α → α → Bool) (l : List α) : (sortLE le l).Perm l := by
  induction l with
  | nil => exact List.Perm.refl _
  | cons x xs ih => exact (insertLE_perm le x (sortLE le xs)).trans (ih.cons x)

theorem mem_sortLE {le : α → α → Bool} {l : List α} {a : α} :
    a ∈ sortLE le l ↔ a ∈ l :=
  (sortLE_perm le l).mem_iff

theorem mem_insertLE (le : α → α → Bool) (x : α) (l : List α) (a : α) :
    a ∈ insertLE le x l ↔ a = x ∨ a ∈ l :=
  (insertLE_perm le x l).mem_iff.trans List.mem_cons

theorem insertLE_pairwise (le : α → α → Bool)
    (htot : ∀ a b, le a b = false → le b a = true)
    (htrans : ∀ a b c, le a b = true → le b c = true → le a c = true)
    (x : α) (l : List α) (hl : l.Pairwise (fun a b => le a b = true)) :
    (insertLE le x l).Pairwise (fun a b => le a b = true) := by
  induction l with
  | nil => simp [insertLE]
  | cons y ys ih =>
      rw [insertLE]
      rw [List.pairwise_cons] at hl
      by_cases h : le x y = true
      · rw [if_pos h]
        refine List.Pairwise.cons ?_ (List.Pairwise.cons hl.1 hl.2)
        intro z hz
        rcases List.mem_cons.mp hz with rfl | hz
        · exact h
        · exact htrans x y z h (hl.1 z hz)
      · rw [if_neg h]
        refine List.Pairwise.cons ?_ (ih hl.2)
        intro z hz
        rcases (mem_insertLE le x ys z).mp hz with rfl | hz
        · exact htot z y (by simpa using h)
        · exact hl.1 z hz

theorem sortLE_pairwise (le : α → α → Bool)
    (htot : ∀ a b, le a b = false → le b a = true)
    (htrans : ∀ a b c, le a b = true → le b c = true → le a c = true)
    (l : List α) : (sortLE le l).Pairwise (fun a b => le a b = true) := by
  induction l with
  | nil => exact List.Pairwise.nil
  | cons x xs ih => exact insertLE_pairwise le htot htrans x (sortLE le xs) ih

theorem selectFold_mem_acc (pt : ConversationPair → ℕ) (cond : ℕ → ℕ → Bool) :
    ∀ (src sel : List ConversationPair) (ct : ℕ) (p : ConversationPair),
      p ∈ sel → p ∈ (selectFold pt cond src sel ct).1 := by
  intro src
  induction src with
  | nil => intro sel ct p hp; exact hp
  | cons q qs ih =>
      intro sel ct p hp
      rw [selectFold]
      by_cases h : cond (ct + pt q) sel.length = true
      · rw [if_pos h]
        exact ih _ _ p (List.mem_append_left _ hp)
      · rw [if_neg h]
        exact ih _ _ p hp

theorem selectFold_tokens_le (pt : ConversationPair → ℕ) (cond : ℕ → ℕ → Bool) :
    ∀ (src sel : List ConversationPair) (ct : ℕ),
      (selectFold pt cond src sel ct).2 ≤ ct + (src.map pt).sum := by
  intro src
  induction src with
  | nil => intro sel ct; simp [selectFold]
  | cons q qs ih =>
      intro sel ct
      rw [selectFold]
      by_cases h : cond (ct + pt q) sel.length = true
      · rw [if_pos h]
        calc (selectFold pt cond qs (sel ++ [q]) (ct + pt q)).2 ≤
            ct + pt q + (qs.map pt).sum := ih _ _
          _ = ct + ((q :: qs).map pt).sum := by
              rw [List.map_cons, List.sum_cons]; omega
      · rw [if_neg h]
        calc (selectFold pt cond qs sel ct).2 ≤ ct + (qs.map pt).sum := ih _ _
          _ ≤ ct + ((q :: qs).map pt).sum := by
              rw [List.map_cons, List.sum_cons]; omega

theorem selectFold_budget_all (pt : ConversationPair → ℕ) (maxTokens : ℕ) :
    ∀ (src sel : List ConversationPair) (ct : ℕ),
      ct + (src.map pt).sum ≤ maxTokens →
      ∀ p ∈ src, p ∈ (selectFold pt (fun t _ => t ≤ maxTokens) src sel ct).1 := by
  intro src
  induction src with
  | nil => intro sel ct _ p hp; exact absurd hp (List.not_mem_nil p)
  | cons q qs ih =>
      intro sel ct hbound p hp
      rw [List.map_cons, List.sum_cons] at hbound
      have hfit : ct + pt q ≤ maxTokens := by omega
      rw [selectFold, if_pos (by simpa using hfit)]
      rcases List.mem_cons.mp hp with rfl | hp
      · exact selectFold_mem_acc _ _ _ _ _ p
          (List.mem_append_right _ (List.mem_singleton.mpr rfl))
      · exact ih _ _ (by omega) p hp

theorem countPairTokens_eq_sum (pairs : List ConversationPair)
    (tokenCounter : String → ℕ) :
    countPairTokens pairs tokenCounter = (pairs.map (pairTokens tokenCounter)).sum := by
  have key : ∀ (l : List ConversationPair) (a : ℕ),
      l.foldl (fun total pair =>
        total + tokenCounter pair.userMessage.content +
          match pair.assistantMessage with
          | some am => tokenCounter am.content
          | none => 0) a = a + (l.map (pairTokens tokenCounter)).sum := by
    intro l
    induction l with
    | nil => intro a; simp
    | cons p ps ih =>
        intro a
        rw [List.foldl_cons, ih, List.map_cons, List.sum_cons]
        have hpt : pairTokens tokenCounter p =
            tokenCounter p.userMessage.content +
              match p.assistantMessage with
              | some am => tokenCounter am.content
              | none => 0 := by
          rw [pairTokens, countPairTokens]
          simp
        omega
  rw [countPairTokens, key]
  omega

theorem system_nonSystem_perm (pairs : List ConversationPair) :
    (systemPairs pairs ++ nonSystemPairs pairs).Perm pairs := by
  unfold systemPairs nonSystemPairs
  simpa [decide_not] using
    List.filter_append_perm (fun p => decide (p.userMessage.role = MessageRole.system))
      pairs

theorem older_recent_eq (ns : List ConversationPair) (k : ℕ) :
    olderPairs ns k ++ recentPairs ns k = ns := by
  unfold olderPairs recentPairs
  by_cases h : k = 0
  · simp [h]
  · simp [h, List.take_append_drop]

theorem referenced_partition (detectRef : String → Bool) (hasList : String → Bool)
    (older : List ConversationPair) (q : Option String) :
    (referencedOf detectRef hasList older q ++
      older.filter (fun p => ¬ p ∈ referencedOf detectRef hasList older q)).Perm
      older := by
  cases q with
  | none =>
      have hre : referencedOf detectRef hasList older none = [] := rfl
      rw [hre]
      simp
  | some s =>
      by_cases hq : s ≠ "" ∧ detectRef s = true
      · have hre : referencedOf detectRef hasList older (some s) =
            older.filter (fun p =>
              match p.assistantMessage with
              | some am => hasList am.content
              | none => false) := by
          show (if s ≠ "" ∧ detectRef s = true then
              older.filter (fun p =>
                match p.assistantMessage with
                | some am => hasList am.content
                | none => false)
            else []) = _
          rw [if_pos hq]
        rw [hre]
        have hcong : (older.filter (fun p =>
            ¬ p ∈ older.filter (fun p =>
              match p.assistantMessage with
              | some am => hasList am.content
              | none => false))) =
            older.filter (fun p => !(match p.assistantMessage with
              | some am => hasList am.content
              | none => false)) := by
          apply List.filter_congr
          intro p hp
          simp [List.mem_filter, hp]
        rw [hcong]
        exact List.filter_append_perm _ older
      · have hre : referencedOf detectRef hasList older (some s) = [] := by
          show (if s ≠ "" ∧ detectRef s = true then
              older.filter (fun p =>
                match p.assistantMessage with
                | some am => hasList am.content
                | none => false)
            else []) = _
          rw [if_neg hq]
        rw [hre]
        simp

theorem selectPairs_token_partition (detectRef : String → Bool)
    (hasList : String → Bool) (pairs : List ConversationPair) (q : Option String)
    (tokenCounter : String → ℕ) (k : ℕ) :
    ((systemPairs pairs).map (pairTokens tokenCounter)).sum +
      ((referencedOf detectRef hasList (olderPairs (nonSystemPairs pairs) k)
        q).map (pairTokens tokenCounter)).sum +
      ((scoredOlderOf detectRef hasList (olderPairs (nonSystemPairs pairs) k)
        q).map (pairTokens tokenCounter)).sum +
      ((recentPairs (nonSystemPairs pairs) k).map (pairTokens tokenCounter)).sum =
    (pairs.map (pairTokens tokenCounter)).sum := by
  have hA := ((system_nonSystem_perm pairs).map (pairTokens tokenCounter)).sum_eq
  rw [List.map_append, List.sum_append] at hA
  have hB : ((olderPairs (nonSystemPairs pairs) k).map (pairTokens tokenCounter)).sum +
      ((recentPairs (nonSystemPairs pairs) k).map (pairTokens tokenCounter)).sum =
      ((nonSystemPairs pairs).map (pairTokens tokenCounter)).sum := by
    conv_rhs => rw [← older_recent_eq (nonSystemPairs pairs) k]
    rw [List.map_append, List.sum_append]
  have hC := ((referenced_partition detectRef hasList
    (olderPairs (nonSystemPairs pairs) k) q).map (pairTokens tokenCounter)).sum_eq
  rw [List.map_append, List.sum_append] at hC
  have hD : ((scoredOlderOf detectRef hasList (olderPairs (nonSystemPairs pairs) k)
      q).map (pairTokens tokenCounter)).sum =
      (((olderPairs (nonSystemPairs pairs) k).filter (fun p =>
        ¬ p ∈ referencedOf detectRef hasList (olderPairs (nonSystemPairs pairs) k)
          q)).map (pairTokens tokenCounter)).sum :=
    ((sortLE_perm _ _).map (pairTokens tokenCounter)).sum_eq
  omega

/-- C8 (counterexample): a single non-system pair of 1 token under
`maxTokens = 0` (default counter `Math.ceil(len/4)`, `minRecentPairs = 3`): it
is among the most recent `minRecentPairs` pairs, yet `selectPairs` returns the
empty selection — recent pairs are *not* unconditional, they are subject to
the token budget check. -/
theorem claim_C8_counterexample :
    recentPairs (nonSystemPairs
        [{ id := "pair-0", userMessage := mkUserMsg "u" 0, assistantMessage := none,
           importance := 1/2, hasReference := false, referencedPairIds := [],
           timestamp := 0 }]) 3 =
      [{ id := "pair-0", userMessage := mkUserMsg "u" 0, assistantMessage := none,
         importance := 1/2, hasReference := false, referencedPairIds := [],
         timestamp := 0 }] ∧
    selectPairs (fun _ => false) (fun _ => false)
      [{ id := "pair-0", userMessage := mkUserMsg "u" 0, assistantMessage := none,
         importance := 1/2, hasReference := false, referencedPairIds := [],
         timestamp := 0 }]
      20 0 none (fun t => (t.length + 3) / 4) 3 = [] := by
  constructor
  · rfl
  · rfl

/-- C8 (amended): in `selectPairs`, system pairs are included unconditionally
and the output is returned in chronological (timestamp) order; the most recent
`minRecentPairs` non-system pairs are *not* unconditional — each is included
only if the cumulative token count stays within `maxTokens`, and in particular
all of them are included whenever the entire pair list fits the budget.
(Older importance-ranked pairs fill only while the cumulative total stays
within 60% of the *total* budget, and referenced pairs go first — per the
definition of `selectPairs`; the original claim's "unconditional" recency is
refuted by `claim_C8_counterexample`.) -/
theorem claim_C8_selectPairs_amended (detectRef : String → Bool)
    (hasList : String → Bool) (pairs : List ConversationPair)
    (maxPairs maxTokens : ℕ) (currentQuery : Option String)
    (tokenCounter : String → ℕ) (minRecentPairs : ℕ) :
    (∀ p ∈ pairs, p.userMessage.role = .system →
      p ∈ selectPairs detectRef hasList pairs maxPairs maxTokens currentQuery
        tokenCounter minRecentPairs) ∧
    (selectPairs detectRef hasList pairs maxPairs maxTokens currentQuery
        tokenCounter minRecentPairs).Pairwise
      (fun a b => a.timestamp ≤ b.timestamp) ∧
    (countPairTokens pairs tokenCounter ≤ maxTokens →
      ∀ p ∈ recentPairs (nonSystemPairs pairs) minRecentPairs,
        p ∈ selectPairs detectRef hasList pairs maxPairs maxTokens currentQuery
          tokenCounter minRecentPairs) := by
  by_cases hemp : pairs.isEmpty = true
  · have hnil : pairs = [] := List.isEmpty_iff.mp hemp
    subst hnil
    refine ⟨?_, ?_, ?_⟩
    · intro p hp; exact absurd hp (List.not_mem_nil p)
    · simp [selectPairs]
    · intro _ p hp
      exact absurd hp (by simp [nonSystemPairs, recentPairs] at hp ⊢)
  · have hsel : selectPairs detectRef hasList pairs maxPairs maxTokens currentQuery
        tokenCounter minRecentPairs =
        sortLE (fun a b => a.timestamp ≤ b.timestamp)
          (selectPhase (pairTokens tokenCounter) (fun t _ => t ≤ maxTokens)
            (recentPairs (nonSystemPairs pairs) minRecentPairs)
            (selectPhase (pairTokens tokenCounter)
              (fun t len =>
                ((t : ℚ) ≤ (maxTokens : ℚ) * (6/10) ∧
                  (len : ℤ) < (maxPairs : ℤ) - (minRecentPairs : ℤ)))
              (scoredOlderOf detectRef hasList
                (olderPairs (nonSystemPairs pairs) minRecentPairs) currentQuery)
              (selectPhase (pairTokens tokenCounter)
                (fun t len => (t ≤ maxTokens ∧ len < maxPairs))
                (referencedOf detectRef hasList
                  (olderPairs (nonSystemPairs pairs) minRecentPairs) currentQuery)
                (systemPairs pairs,
                  countPairTokens (systemPairs pairs) tokenCounter)))).1 := by
      rw [selectPairs, if_neg hemp]
    refine ⟨?_, ?_, ?_⟩
    · intro p hp hsys
      rw [hsel, mem_sortLE]
      apply selectFold_mem_acc
      apply selectFold_mem_acc
      apply selectFold_mem_acc
      rw [systemPairs, List.mem_filter]
      exact ⟨hp, by simp [hsys]⟩
    · rw [hsel]
      refine (sortLE_pairwise
        (fun a b : ConversationPair => decide (a.timestamp ≤ b.timestamp))
        ?_ ?_ _).imp (fun hab => of_decide_eq_true hab)
      · intro a b hab
        simp only [decide_eq_false_iff_not, not_le] at hab
        exact decide_eq_true (le_of_lt hab)
      · intro a b c hab hbc
        exact decide_eq_true (le_trans (of_decide_eq_true hab) (of_decide_eq_true hbc))
    · intro hbudget p hp
      rw [hsel, mem_sortLE]
      rw [countPairTokens_eq_sum] at hbudget
      set st1 := selectPhase (pairTokens tokenCounter)
        (fun t len => (t ≤ maxTokens ∧ len < maxPairs))
        (referencedOf detectRef hasList
          (olderPairs (nonSystemPairs pairs) minRecentPairs) currentQuery)
        (systemPairs pairs,
          countPairTokens (systemPairs pairs) tokenCounter) with hst1
      set st2 := selectPhase (pairTokens tokenCounter)
        (fun t len =>
          ((t : ℚ) ≤ (maxTokens : ℚ) * (6/10) ∧
            (len : ℤ) < (maxPairs : ℤ) - (minRecentPairs : ℤ)))
        (scoredOlderOf detectRef hasList
          (olderPairs (nonSystemPairs pairs) minRecentPairs) currentQuery)
        st1 with hst2
      have h1 : st2.2 ≤ st1.2 +
          ((scoredOlderOf detectRef hasList
            (olderPairs (nonSystemPairs pairs) minRecentPairs) currentQuery).map
            (pairTokens tokenCounter)).sum := by
        rw [hst2, selectPhase]
        exact selectFold_tokens_le _ _ _ _ _
      have h2 : st1.2 ≤ countPairTokens (systemPairs pairs) tokenCounter +
          ((referencedOf detectRef hasList
            (olderPairs (nonSystemPairs pairs) minRecentPairs) currentQuery).map
            (pairTokens tokenCounter)).sum := by
        rw [hst1, selectPhase]
        exact selectFold_tokens_le _ _ _ _ _
      rw [countPairTokens_eq_sum] at h2
      have h3 := selectPairs_token_partition detectRef hasList pairs currentQuery
        tokenCounter minRecentPairs
      simp only [selectPhase]
      apply selectFold_budget_all
      · omega
      · exact hp

/-- Witness for the amended C8: the same single pair under a budget of 100
tokens is selected. -/
theorem claim_C8_selectPairs_amended_witness :
    countPairTokens
        [{ id := "pair-0", userMessage := mkUserMsg "u" 0, assistantMessage := none,
           importance := 1/2, hasReference := false, referencedPairIds := [],
           timestamp := 0 }] (fun t => (t.length + 3) / 4) ≤ 100 ∧
      ({ id := "pair-0", userMessage := mkUserMsg "u" 0, assistantMessage := none,
         importance := 1/2, hasReference := false, referencedPairIds := [],
         timestamp := 0 } : ConversationPair) ∈
        recentPairs (nonSystemPairs
          [{ id := "pair-0", userMessage := mkUserMsg "u" 0, assistantMessage := none,
             importance := 1/2, hasReference := false, referencedPairIds := [],
             timestamp := 0 }]) 3 ∧
      ({ id := "pair-0", userMessage := mkUserMsg "u" 0, assistantMessage := none,
         importance := 1/2, hasReference := false, referencedPairIds := [],
         timestamp := 0 } : ConversationPair) ∈
        selectPairs (fun _ => false) (fun _ => false)
          [{ id := "pair-0", userMessage := mkUserMsg "u" 0, assistantMessage := none,
             importance := 1/2, hasReference := false, referencedPairIds := [],
             timestamp := 0 }]
          20 100 none (fun t => (t.length + 3) / 4) 3 :=
  ⟨by decide,
    by
      show _ ∈ ([{ id := "pair-0", userMessage := mkUserMsg "u" 0,
                   assistantMessage := none, importance := 1/2, hasReference := false,
                   referencedPairIds := [], timestamp := 0 }] : List ConversationPair)
      exact List.mem_singleton.mpr rfl,
    (claim_C8_selectPairs_amended (fun _ => false) (fun _ => false)
        [{ id := "pair-0", userMessage := mkUserMsg "u" 0, assistantMessage := none,
           importance := 1/2, hasReference := false, referencedPairIds := [],
           timestamp := 0 }]
        20 100 none (fun t => (t.length + 3) / 4) 3).2.2
      (by decide)
      _
      (by
        show _ ∈ ([{ id := "pair-0", userMessage := mkUserMsg "u" 0,
                     assistantMessage := none, importance := 1/2, hasReference := false,
                     referencedPairIds := [], timestamp := 0 }] : List ConversationPair)
        exact List.mem_singleton.mpr rfl)⟩

/-! ### `SemanticIndex` (`src/smart/semantic-index.ts`)

TF-IDF search index.  `Math.log` and `Math.sqrt` are passed as function
parameters `log sqrt : K → K` over an ordered field `K` (theorems instantiate
`K := ℝ`, `log := Real.log`, `sqrt := Real.sqrt`; IEEE rounding is not
modelled).  The two `Map` fields are insertion-ordered association lists. -/

/-- `Map.prototype.get`: value of the first entry with the given key. -/
def alistGet (l : List (String × β)) (k : String) : Option β :=
  match l.find? (fun e => decide (e.1 = k)) with
  | some e => some e.2
  | none => none

/-- `Map.prototype.set`: update the entry in place if the key is present,
otherwise append a new entry at the end (JavaScript insertion order). -/
def alistSet : List (String × β) → String → β → List (String × β)
  | [], k, v => [(k, v)]
  | e :: rest, k, v => if e.1 = k then (k, v) :: rest else e :: alistSet rest k v

/-- `Map.prototype.delete`: drop the entry with the given key (maps built by
`alistSet` have distinct keys, so at most one entry is removed). -/
def alistDelete (l : List (String × β)) (k : String) : List (String × β) :=
  l.filter (fun e => decide (e.1 ≠ k))

/-- The stop-word set of `semantic-index.ts` (`STOP_WORDS`), in source order. -/
def STOP_WORDS : List String :=
  ["a", "an", "the", "and", "or", "but", "in", "on", "at", "to", "for",
   "of", "with", "by", "from", "as", "is", "was", "are", "were", "been",
   "be", "have", "has", "had", "do", "does", "did", "will", "would",
   "could", "should", "may", "might", "must", "shall", "can", "need",
   "it", "its", "this", "that", "these", "those", "i", "you", "he",
   "she", "we", "they", "what", "which", "who", "when", "where", "why",
   "how", "all", "each", "every", "both", "few", "more", "most", "other",
   "some", "such", "no", "not", "only", "own", "same", "so", "than",
   "too", "very", "just", "also", "now", "here", "there", "then"]

/-- The regex class `\w` = `[A-Za-z0-9_]` (ASCII, as in JavaScript). -/
def isWordChar (c : Char) : Bool := c.isAlphanum || c == '_'

/-- The regex class `\s`, restricted to the whitespace characters that occur
in the strings of this development (JavaScript `\s` also matches further
Unicode space characters, none of which appear here). -/
def isSpaceChar (c : Char) : Bool := c == ' ' || c == '\t' || c == '\n' || c == '\r'

/-- `.replace(/[^\w\s]/g, ' ')`, one character at a time. -/
def scrubChar (c : Char) : Char := if isWordChar c || isSpaceChar c then c else ' '

/-- Splitting at whitespace characters, accumulator formulation.  JavaScript
`split(/\s+/)` merges separator runs; splitting at every separator instead
yields extra empty strings, all of which are removed by the `length > 2`
filter of `tokenize`, so the two splittings agree observationally. -/
def splitWsAux : List Char → List Char → List String
  | [], acc => [String.mk acc.reverse]
  | c :: cs, acc =>
      if isSpaceChar c then String.mk acc.reverse :: splitWsAux cs []
      else splitWsAux cs (c :: acc)

/-- `.split(/\s+/)` (up to empty-string results, see `splitWsAux`). -/
def splitWs (cs : List Char) : List String := splitWsAux cs []

/-- `SemanticIndex.tokenize`: lower-case, replace `[^\w\s]` by spaces, split
on whitespace, keep terms longer than 2 that are not stop words.
`Char.toLower` agrees with `toLowerCase` on ASCII. -/
def tokenize (text : String) : List String :=
  (splitWs ((text.data.map Char.toLower).map scrubChar)).filter
    (fun term => decide (2 < term.length) && !(STOP_WORDS.contains term))

/-- `SemanticIndex.countTerms`: occurrence counts in first-occurrence order. -/
def countTerms (terms : List String) : List (String × ℕ) :=
  terms.foldl (fun counts term => alistSet counts term ((alistGet counts term).getD 0 + 1)) []

/-- `Math.max(1, ...counts.values())`. -/
def maxFreq (counts : List (String × ℕ)) : ℕ :=
  counts.foldl (fun m e => max m e.2) 1

/-- `SemanticIndex.calculateTF`: normalized term frequency `count / maxCount`. -/
def calculateTF (K : Type) [LinearOrderedField K] (terms : List String) : List (String × K) :=
  (countTerms terms).map (fun e => (e.1, (e.2 : K) / (maxFreq (countTerms terms) : K)))

/-- `DocumentVector` of `semantic-index.ts`. -/
structure DocumentVector (K : Type) where
  id : String
  terms : List (String × K)
  magnitude : K

/-- `IndexedMessage` of `semantic-index.ts`. -/
structure IndexedMessage (K : Type) where
  message : Message
  vector : DocumentVector K

/-- The private state of a `SemanticIndex` instance. -/
structure SemanticIndex (K : Type) where
  documents : List (String × IndexedMessage K)
  documentFrequency : List (String × ℕ)
  totalDocuments : ℤ
  dirty : Bool

/-- A freshly constructed `SemanticIndex` (the field initializers). -/
def emptyIndex (K : Type) : SemanticIndex K :=
  { documents := [], documentFrequency := [], totalDocuments := 0, dirty := false }

/-- `SemanticIndex.add`: bump the document frequency of every distinct term of
the message, store the raw-TF vector with magnitude `0`, increment
`totalDocuments` and mark the index dirty. -/
def SemanticIndex.add {K : Type} [LinearOrderedField K]
    (idx : SemanticIndex K) (message : Message) : SemanticIndex K :=
  { documents := alistSet idx.documents message.id
      ⟨message, ⟨message.id, calculateTF K (tokenize message.content), 0⟩⟩,
    documentFrequency :=
      ((calculateTF K (tokenize message.content)).map Prod.fst).foldl
        (fun df term => alistSet df term ((alistGet df term).getD 0 + 1))
        idx.documentFrequency,
    totalDocuments := idx.totalDocuments + 1,
    dirty := true }

/-- `SemanticIndex.remove`: if the id is indexed, decrement (or at count ≤ 1
delete) the document frequency of every term of the stored vector, drop the
document, decrement `totalDocuments` and mark the index dirty.  The source
additionally returns a boolean, which carries no state and is omitted. -/
def SemanticIndex.remove {K : Type} [LinearOrderedField K]
    (idx : SemanticIndex K) (messageId : String) : SemanticIndex K :=
  match alistGet idx.documents messageId with
  | none => idx
  | some indexed =>
      { documents := alistDelete idx.documents messageId,
        documentFrequency :=
          (indexed.vector.terms.map Prod.fst).foldl
            (fun df term =>
              if (alistGet df term).getD 0 ≤ 1 then alistDelete df term
              else alistSet df term ((alistGet df term).getD 0 - 1))
            idx.documentFrequency,
        totalDocuments := idx.totalDocuments - 1,
        dirty := true }

/-- `SemanticIndex.calculateTFIDF`: multiply each TF score by
`log(totalDocuments / (df + 1)) + 1`. -/
def calculateTFIDF {K : Type} [LinearOrderedField K] (log : K → K)
    (documentFrequency : List (String × ℕ)) (totalDocuments : ℤ)
    (tf : List (String × K)) : List (String × K) :=
  tf.map (fun e =>
    (e.1, e.2 * (log ((totalDocuments : K) /
      (((alistGet documentFrequency e.1).getD 0 : K) + 1)) + 1)))

/-- `SemanticIndex.calculateMagnitude`: `sqrt` of the sum of squared scores. -/
def calculateMagnitude {K : Type} [LinearOrderedField K] (sqrt : K → K)
    (vector : List (String × K)) : K :=
  sqrt (vector.foldl (fun sum e => sum + e.2 * e.2) 0)

/-- `SemanticIndex.cosineSimilarity`: `0` on zero magnitudes, otherwise the
dot product over `v1`'s entries divided by the magnitude product. -/
def cosineSimilarity {K : Type} [LinearOrderedField K]
    (v1 : List (String × K)) (mag1 : K) (v2 : List (String × K)) (mag2 : K) : K :=
  if mag1 = 0 ∨ mag2 = 0 then 0
  else
    (v1.foldl (fun dot e =>
      match alistGet v2 e.1 with
      | some otherScore => dot + e.2 * otherScore
      | none => dot) 0) / (mag1 * mag2)

/-- `SemanticIndex.recalculateIDF`: overwrite every stored vector's `terms`
with `calculateTFIDF` of its current value (note: NOT of the original raw TF)
and its magnitude accordingly, then clear the dirty flag. -/
def recalculateIDF {K : Type} [LinearOrderedField K] (log sqrt : K → K)
    (idx : SemanticIndex K) : SemanticIndex K :=
  { idx with
    documents := idx.documents.map (fun e =>
      (e.1, { e.2 with vector :=
        { id := e.2.vector.id,
          terms := calculateTFIDF log idx.documentFrequency idx.totalDocuments
            e.2.vector.terms,
          magnitude := calculateMagnitude sqrt
            (calculateTFIDF log idx.documentFrequency idx.totalDocuments
              e.2.vector.terms) } })),
    dirty := false }

/-- The state against which `search` evaluates: the index after the
`if (this.dirty) recalculateIDF()` prologue. -/
def searchState {K : Type} [LinearOrderedField K] (log sqrt : K → K)
    (idx : SemanticIndex K) : SemanticIndex K :=
  if idx.dirty then recalculateIDF log sqrt idx else idx

/-- The TF-IDF vector of the query against the (recalculated) index. -/
def queryVectorOf {K : Type} [LinearOrderedField K] (log : K → K)
    (idx : SemanticIndex K) (query : String) : List (String × K) :=
  calculateTFIDF log idx.documentFrequency idx.totalDocuments
    (calculateTF K (tokenize query))

/-- The scored documents of `search` before sorting: every document paired
with its cosine similarity to the query, kept when `score >= minScore`. -/
def searchResults {K : Type} [LinearOrderedField K] (log sqrt : K → K)
    (idx : SemanticIndex K) (query : String) (minScore : K) : List (Message × K) :=
  (idx.documents.map (fun e =>
    (e.2.message,
     cosineSimilarity (queryVectorOf log idx query)
       (calculateMagnitude sqrt (queryVectorOf log idx query))
       e.2.vector.terms e.2.vector.magnitude))).filter
    (fun r => decide (minScore ≤ r.2))

/-- `SemanticIndex.search`: recalculate IDF if dirty, build the query vector,
return `[]` on a zero query magnitude, otherwise the minScore-filtered
documents sorted by score descending, truncated to `topK`.  The defaults
`topK = 5`, `minScore = 0.1` are passed explicitly, and the method's state
mutation is returned as the second component. -/
def SemanticIndex.search {K : Type} [LinearOrderedField K] (log sqrt : K → K)
    (idx : SemanticIndex K) (query : String) (topK : ℕ) (minScore : K) :
    List (Message × K) × SemanticIndex K :=
  if calculateMagnitude sqrt (queryVectorOf log (searchState log sqrt idx) query) = 0 then
    ([], searchState log sqrt idx)
  else
    ((sortLE (fun a b : Message × K => decide (b.2 ≤ a.2))
        (searchResults log sqrt (searchState log sqrt idx) query minScore)).take topK,
     searchState log sqrt idx)

/-- First document of the C7 scenario: content `"aaa"`. -/
def c7doc1 : Message := { id := "d1", role := .user, content := "aaa", timestamp := 0 }

/-- Second document of the C7 scenario: content `"aaa bbb"`. -/
def c7doc2 : Message := { id := "d2", role := .user, content := "aaa bbb", timestamp := 1 }

/-- The transiently added-and-removed message of the C7 scenario. -/
def c7doc3 : Message := { id := "m3", role := .user, content := "ccc", timestamp := 2 }

def c7state {K : Type} [LinearOrderedField K] (x m1 m2 : K) : SemanticIndex K :=
  { documents :=
      [("d1", ⟨c7doc1, ⟨"d1", [("aaa", x)], m1⟩⟩),
       ("d2", ⟨c7doc2, ⟨"d2", [("aaa", x), ("bbb", 1)], m2⟩⟩)],
    documentFrequency := [("aaa", 2), ("bbb", 1)],
    totalDocuments := 2, dirty := false }

lemma cosineSimilarity_ne {K : Type} [LinearOrderedField K]
    (v1 : List (String × K)) (mag1 : K) (v2 : List (String × K)) (mag2 : K)
    (h1 : mag1 ≠ 0) (h2 : mag2 ≠ 0) :
    cosineSimilarity v1 mag1 v2 mag2 =
      (v1.foldl (fun dot e =>
        match alistGet v2 e.1 with
        | some otherScore => dot + e.2 * otherScore
        | none => dot) 0) / (mag1 * mag2) := by
  rw [cosineSimilarity, if_neg (by simp [h1, h2])]

lemma c7searchEval (x : ℝ) (hx0 : 0 < x) (hx1 : x ≤ 1) :
    (SemanticIndex.search Real.log Real.sqrt
        (c7state x (Real.sqrt (x*x)) (Real.sqrt (x*x+1))) "bbb" 5 (1/10)).1 =
      [(c7doc2, (Real.sqrt (x*x+1))⁻¹)] := by
  have ht : tokenize "bbb" = ["bbb"] := by decide
  have hss : searchState Real.log Real.sqrt
      (c7state x (Real.sqrt (x*x)) (Real.sqrt (x*x+1))) =
      c7state x (Real.sqrt (x*x)) (Real.sqrt (x*x+1)) := by
    simp [searchState, c7state]
  have hqv : queryVectorOf Real.log
      (c7state x (Real.sqrt (x*x)) (Real.sqrt (x*x+1))) "bbb" = [("bbb", (1:ℝ))] := by
    norm_num +decide [queryVectorOf, c7state, calculateTFIDF, calculateTF, countTerms,
      maxFreq, alistGet, alistSet, ht]
  have hqm : calculateMagnitude Real.sqrt [("bbb", (1:ℝ))] = 1 := by
    norm_num [calculateMagnitude, Real.sqrt_one]
  have h1 : cosineSimilarity [("bbb", (1:ℝ))] 1 [("aaa", x)] (Real.sqrt (x*x)) = 0 := by
    rw [cosineSimilarity_ne _ _ _ _ one_ne_zero
      (ne_of_gt (Real.sqrt_pos.mpr (mul_pos hx0 hx0)))]
    norm_num +decide [alistGet]
  have h2 : cosineSimilarity [("bbb", (1:ℝ))] 1 [("aaa", x), ("bbb", (1:ℝ))]
      (Real.sqrt (x*x+1)) = (Real.sqrt (x*x+1))⁻¹ := by
    rw [cosineSimilarity_ne _ _ _ _ one_ne_zero
      (ne_of_gt (Real.sqrt_pos.mpr (by positivity)))]
    norm_num +decide [alistGet]
  have hf1 : decide ((1:ℝ)/10 ≤ (0:ℝ)) = false := by
    rw [decide_eq_false_iff_not]; norm_num
  have hf2 : decide ((1:ℝ)/10 ≤ (Real.sqrt (x*x+1))⁻¹) = true := by
    rw [decide_eq_true_eq]
    have hspos : 0 < Real.sqrt (x*x+1) := Real.sqrt_pos.mpr (by positivity)
    have hsle : Real.sqrt (x*x+1) ≤ 10 := by
      have h100 : (x*x+1 : ℝ) ≤ 100 := by nlinarith
      calc Real.sqrt (x*x+1) ≤ Real.sqrt 100 := Real.sqrt_le_sqrt h100
        _ = 10 := by
            rw [show (100:ℝ) = 10^2 by norm_num, Real.sqrt_sq (by norm_num : (0:ℝ) ≤ 10)]
    rw [← one_div, div_le_div_iff₀ (by norm_num) hspos]
    linarith
  have hsr : searchResults Real.log Real.sqrt
      (c7state x (Real.sqrt (x*x)) (Real.sqrt (x*x+1))) "bbb" (1/10) =
      [(c7doc2, (Real.sqrt (x*x+1))⁻¹)] := by
    rw [searchResults, hqv, hqm]
    show ((c7state x (Real.sqrt (x*x)) (Real.sqrt (x*x+1))).documents.map _).filter _ = _
    simp only [c7state, List.map_cons, List.map_nil]
    simp only [h1, h2]
    simp only [List.filter_cons, List.filter_nil, hf1, hf2]
    simp
  rw [SemanticIndex.search, hss, hqv, hqm, if_neg (one_ne_zero)]
  show (sortLE _ (searchResults _ _ _ _ _)).take 5 = _
  rw [hsr]
  simp [sortLE, insertLE]

def c7cleanState {K : Type} [LinearOrderedField K] (log sqrt : K → K) : SemanticIndex K :=
  (SemanticIndex.search log sqrt
    (SemanticIndex.add (SemanticIndex.add (emptyIndex K) c7doc1) c7doc2) "the" 5 (1/10)).2

lemma search_snd {K : Type} [LinearOrderedField K] (log sqrt : K → K)
    (idx : SemanticIndex K) (query : String) (topK : ℕ) (minScore : K) :
    (SemanticIndex.search log sqrt idx query topK minScore).2 = searchState log sqrt idx := by
  rw [SemanticIndex.search]; split <;> rfl

lemma searchState_dirty {K : Type} [LinearOrderedField K] (log sqrt : K → K)
    (idx : SemanticIndex K) : (searchState log sqrt idx).dirty = false := by
  rw [searchState]
  by_cases h : idx.dirty
  · rw [if_pos h]; rfl
  · rw [if_neg h]; simpa using h

lemma searchState_idem {K : Type} [LinearOrderedField K] (log sqrt : K → K)
    (idx : SemanticIndex K) :
    searchState log sqrt (searchState log sqrt idx) = searchState log sqrt idx := by
  conv_lhs => rw [searchState]
  rw [searchState_dirty]
  simp

lemma search_eq_search_searchState {K : Type} [LinearOrderedField K] (log sqrt : K → K)
    (idx : SemanticIndex K) (query : String) (topK : ℕ) (minScore : K) :
    SemanticIndex.search log sqrt idx query topK minScore =
      SemanticIndex.search log sqrt (searchState log sqrt idx) query topK minScore := by
  rw [SemanticIndex.search, SemanticIndex.search, searchState_idem]

lemma c7addRemove {K : Type} [LinearOrderedField K] (x m1 m2 : K) :
    SemanticIndex.remove (SemanticIndex.add (c7state x m1 m2) c7doc3) "m3" =
      { c7state x m1 m2 with dirty := true } := by
  have ht : tokenize "ccc" = ["ccc"] := by decide
  norm_num +decide [SemanticIndex.add, SemanticIndex.remove, c7state, c7doc3, ht,
    calculateTF, countTerms, maxFreq, alistGet, alistSet, alistDelete]

lemma c7recalc (x m1 m2 : ℝ) :
    searchState Real.log Real.sqrt { c7state x m1 m2 with dirty := true } =
      c7state (x * (Real.log (2/3) + 1))
        (Real.sqrt ((x * (Real.log (2/3) + 1)) * (x * (Real.log (2/3) + 1))))
        (Real.sqrt ((x * (Real.log (2/3) + 1)) * (x * (Real.log (2/3) + 1)) + 1)) := by
  norm_num +decide [searchState, recalculateIDF, c7state, calculateTFIDF,
    calculateMagnitude, alistGet]

lemma c7cleanState_eval :
    c7cleanState Real.log Real.sqrt =
      c7state (Real.log (2/3) + 1)
        (Real.sqrt ((Real.log (2/3) + 1) * (Real.log (2/3) + 1)))
        (Real.sqrt ((Real.log (2/3) + 1) * (Real.log (2/3) + 1) + 1)) := by
  have hadd : SemanticIndex.add (SemanticIndex.add (emptyIndex ℝ) c7doc1) c7doc2 =
      { c7state (1:ℝ) 0 0 with dirty := true } := by
    have ht1 : tokenize "aaa" = ["aaa"] := by decide
    have ht2 : tokenize "aaa bbb" = ["aaa", "bbb"] := by decide
    norm_num +decide [SemanticIndex.add, emptyIndex, c7state, c7doc1, c7doc2, ht1, ht2,
      calculateTF, countTerms, maxFreq, alistSet, alistGet]
  rw [c7cleanState, search_snd, hadd]
  have h := c7recalc 1 0 0
  simpa using h

/-- C7 (divergence of the code from the claim, evaluated at a failing input):
`add(m)` followed by `remove(m.id)` does restore the
document-frequency map, the document map and `totalDocuments` exactly, but it
leaves the index `dirty`, and the claimed search-equivalence fails: starting
from the clean (recalculated) index over `d1 = "aaa"`, `d2 = "aaa bbb"`, the
search for `"bbb"` before an `add`/`remove` of `m3 = "ccc"` and the identical
search after it return different scores for `d2`, because the triggered
`recalculateIDF` multiplies the stored, already-IDF-weighted vectors by the
IDF factors a second time (`recalculateIDF` overwrites `vector.terms` with
`calculateTFIDF` of its current value instead of the raw term frequencies). -/
theorem claim_C7_code_divergence :
    (SemanticIndex.remove (SemanticIndex.add (c7cleanState Real.log Real.sqrt) c7doc3)
        "m3").documentFrequency = (c7cleanState Real.log Real.sqrt).documentFrequency ∧
    (SemanticIndex.remove (SemanticIndex.add (c7cleanState Real.log Real.sqrt) c7doc3)
        "m3").totalDocuments = (c7cleanState Real.log Real.sqrt).totalDocuments ∧
    (SemanticIndex.remove (SemanticIndex.add (c7cleanState Real.log Real.sqrt) c7doc3)
        "m3").documents = (c7cleanState Real.log Real.sqrt).documents ∧
    (SemanticIndex.search Real.log Real.sqrt (c7cleanState Real.log Real.sqrt)
        "bbb" 5 (1/10)).1 ≠
      (SemanticIndex.search Real.log Real.sqrt
        (SemanticIndex.remove (SemanticIndex.add (c7cleanState Real.log Real.sqrt) c7doc3)
          "m3") "bbb" 5 (1/10)).1 := by
  have hc1 : Real.log ((2:ℝ)/3) < 0 := Real.log_neg (by norm_num) (by norm_num)
  have hc0 : 0 < Real.log ((2:ℝ)/3) + 1 := by
    have hexp : (3:ℝ)/2 < Real.exp 1 := by have := Real.exp_one_gt_d9; linarith
    have h2 : Real.exp (-1) < 2/3 := by
      rw [Real.exp_neg]
      calc (Real.exp 1)⁻¹ < ((3:ℝ)/2)⁻¹ := inv_strictAnti₀ (by norm_num) hexp
        _ = 2/3 := by norm_num
    have h4 : (-1:ℝ) < Real.log (2/3) := by
      rw [show (-1:ℝ) = Real.log (Real.exp (-1)) by rw [Real.log_exp]]
      exact Real.log_lt_log (Real.exp_pos _) h2
    linarith
  rw [c7cleanState_eval, c7addRemove]
  refine ⟨rfl, rfl, rfl, ?_⟩
  have hX0 : 0 < ((Real.log (2/3) + 1) * (Real.log (2/3) + 1) : ℝ) := mul_pos hc0 hc0
  have hX1 : ((Real.log (2/3) + 1) * (Real.log (2/3) + 1) : ℝ) < 1 := by nlinarith
  have hA := c7searchEval (Real.log (2/3) + 1) hc0 (by linarith)
  have hB : (SemanticIndex.search Real.log Real.sqrt
      { c7state (Real.log (2/3) + 1)
          (Real.sqrt ((Real.log (2/3) + 1) * (Real.log (2/3) + 1)))
          (Real.sqrt ((Real.log (2/3) + 1) * (Real.log (2/3) + 1) + 1)) with
        dirty := true } "bbb" 5 (1/10)).1 =
      [(c7doc2, (Real.sqrt
        (((Real.log (2/3) + 1) * (Real.log (2/3) + 1)) *
          ((Real.log (2/3) + 1) * (Real.log (2/3) + 1)) + 1))⁻¹)] := by
    rw [search_eq_search_searchState, c7recalc]
    exact c7searchEval ((Real.log (2/3) + 1) * (Real.log (2/3) + 1)) hX0 (le_of_lt hX1)
  rw [hA, hB]
  intro heq
  have hv : (Real.sqrt ((Real.log (2/3) + 1) * (Real.log (2/3) + 1) + 1))⁻¹ =
      (Real.sqrt (((Real.log (2/3) + 1) * (Real.log (2/3) + 1)) *
        ((Real.log (2/3) + 1) * (Real.log (2/3) + 1)) + 1))⁻¹ := by
    simpa using heq
  have hinj := inv_injective hv
  have hXY : ((Real.log (2/3) + 1) * (Real.log (2/3) + 1) + 1 : ℝ) =
      ((Real.log (2/3) + 1) * (Real.log (2/3) + 1)) *
        ((Real.log (2/3) + 1) * (Real.log (2/3) + 1)) + 1 := by
    have e1 := Real.sq_sqrt
      (show (0:ℝ) ≤ (Real.log (2/3) + 1) * (Real.log (2/3) + 1) + 1 by positivity)
    have e2 := Real.sq_sqrt
      (show (0:ℝ) ≤ ((Real.log (2/3) + 1) * (Real.log (2/3) + 1)) *
        ((Real.log (2/3) + 1) * (Real.log (2/3) + 1)) + 1 by positivity)
    rw [← e1, ← e2, hinj]
  have hprod := mul_pos hX0 (sub_pos.mpr hX1)
  nlinarith [hprod, hXY]

end ContextWeaver



